import Mathlib

/-!
# codesnatcher: the image-to-code extraction pipeline

A shallow embedding of `handlers.go` (and of the copy of `postImageHandler`
in `cmd/api/handlers.go`): the languages catalog, the request built by
`extractCodeFromImage`, the classification of the upstream answer, the two
stage JSON decoding, and the HTTP handler that reports the outcome.

Go strings that hold text are Lean `String`s (sequences of Unicode scalar
values, the UTF-8 texts); the image buffer is a list of bytes.
-/

namespace Codesnatcher

/-! ## The languages catalog (`var languages string`) -/

/-- The text of a Go raw string literal, given line by line. -/
def rawString (lines : List String) : String :=
  String.mk (lines.foldr (fun l acc => l.data ++ acc) [])

def languages : String := rawString [
  "\n",
  "Markup - markup, html, xml, svg, mathml, ssml, atom, rss\n",
  "CSS - css\n",
  "C-like - clike\n",
  "JavaScript - javascript, js\n",
  "ABAP - abap\n",
  "ABNF - abnf\n",
  "ActionScript - actionscript\n",
  "Ada - ada\n",
  "Agda - agda\n",
  "AL - al\n",
  "ANTLR4 - antlr4, g4\n",
  "Apache Configuration - apacheconf\n",
  "Apex - apex\n",
  "APL - apl\n",
  "AppleScript - applescript\n",
  "AQL - aql\n",
  "Arduino - arduino, ino\n",
  "ARFF - arff\n",
  "ARM Assembly - armasm, arm-asm\n",
  "Arturo - arturo, art\n",
  "AsciiDoc - asciidoc, adoc\n",
  "ASP.NET (C#) - aspnet\n",
  "6502 Assembly - asm6502\n",
  "Atmel AVR Assembly - asmatmel\n",
  "AutoHotkey - autohotkey\n",
  "AutoIt - autoit\n",
  "AviSynth - avisynth, avs\n",
  "Avro IDL - avro-idl, avdl\n",
  "AWK - awk, gawk\n",
  "Bash - bash, sh, shell\n",
  "BASIC - basic\n",
  "Batch - batch\n",
  "BBcode - bbcode, shortcode\n",
  "BBj - bbj\n",
  "Bicep - bicep\n",
  "Birb - birb\n",
  "Bison - bison\n",
  "BNF - bnf, rbnf\n",
  "BQN - bqn\n",
  "Brainfuck - brainfuck\n",
  "BrightScript - brightscript\n",
  "Bro - bro\n",
  "BSL (1C:Enterprise) - bsl, oscript\n",
  "C - c\n",
  "C# - csharp, cs, dotnet\n",
  "C++ - cpp\n",
  "CFScript - cfscript, cfc\n",
  "ChaiScript - chaiscript\n",
  "CIL - cil\n",
  "Cilk/C - cilkc, cilk-c\n",
  "Cilk/C++ - cilkcpp, cilk-cpp, cilk\n",
  "Clojure - clojure\n",
  "CMake - cmake\n",
  "COBOL - cobol\n",
  "CoffeeScript - coffeescript, coffee\n",
  "Concurnas - concurnas, conc\n",
  "Content-Security-Policy - csp\n",
  "Cooklang - cooklang\n",
  "Coq - coq\n",
  "Crystal - crystal\n",
  "CSS Extras - css-extras\n",
  "CSV - csv\n",
  "CUE - cue\n",
  "Cypher - cypher\n",
  "D - d\n",
  "Dart - dart\n",
  "DataWeave - dataweave\n",
  "DAX - dax\n",
  "Dhall - dhall\n",
  "Diff - diff\n",
  "Django/Jinja2 - django, jinja2\n",
  "DNS zone file - dns-zone-file, dns-zone\n",
  "Docker - docker, dockerfile\n",
  "DOT (Graphviz) - dot, gv\n",
  "EBNF - ebnf\n",
  "EditorConfig - editorconfig\n",
  "Eiffel - eiffel\n",
  "EJS - ejs, eta\n",
  "Elixir - elixir\n",
  "Elm - elm\n",
  "Embedded Lua templating - etlua\n",
  "ERB - erb\n",
  "Erlang - erlang\n",
  "Excel Formula - excel-formula, xlsx, xls\n",
  "F# - fsharp\n",
  "Factor - factor\n",
  "False - false\n",
  "Firestore security rules - firestore-security-rules\n",
  "Flow - flow\n",
  "Fortran - fortran\n",
  "FreeMarker Template Language - ftl\n",
  "GameMaker Language - gml, gamemakerlanguage\n",
  "GAP (CAS) - gap\n",
  "G-code - gcode\n",
  "GDScript - gdscript\n",
  "GEDCOM - gedcom\n",
  "gettext - gettext, po\n",
  "Gherkin - gherkin\n",
  "Git - git\n",
  "GLSL - glsl\n",
  "GN - gn, gni\n",
  "GNU Linker Script - linker-script, ld\n",
  "Go - go\n",
  "Go module - go-module, go-mod\n",
  "Gradle - gradle\n",
  "GraphQL - graphql\n",
  "Groovy - groovy\n",
  "Haml - haml\n",
  "Handlebars - handlebars, hbs, mustache\n",
  "Haskell - haskell, hs\n",
  "Haxe - haxe\n",
  "HCL - hcl\n",
  "HLSL - hlsl\n",
  "Hoon - hoon\n",
  "HTTP - http\n",
  "HTTP Public-Key-Pins - hpkp\n",
  "HTTP Strict-Transport-Security - hsts\n",
  "IchigoJam - ichigojam\n",
  "Icon - icon\n",
  "ICU Message Format - icu-message-format\n",
  "Idris - idris, idr\n",
  ".ignore - ignore, gitignore, hgignore, npmignore\n",
  "Inform 7 - inform7\n",
  "Ini - ini\n",
  "Io - io\n",
  "J - j\n",
  "Java - java\n",
  "JavaDoc - javadoc\n",
  "JavaDoc-like - javadoclike\n",
  "Java stack trace - javastacktrace\n",
  "Jexl - jexl\n",
  "Jolie - jolie\n",
  "JQ - jq\n",
  "JSDoc - jsdoc\n",
  "JS Extras - js-extras\n",
  "JSON - json, webmanifest\n",
  "JSON5 - json5\n",
  "JSONP - jsonp\n",
  "JS stack trace - jsstacktrace\n",
  "JS Templates - js-templates\n",
  "Julia - julia\n",
  "Keepalived Configure - keepalived\n",
  "Keyman - keyman\n",
  "Kotlin - kotlin, kt, kts\n",
  "KuMir (КуМир) - kumir, kum\n",
  "Kusto - kusto\n",
  "LaTeX - latex, tex, context\n",
  "Latte - latte\n",
  "Less - less\n",
  "LilyPond - lilypond, ly\n",
  "Liquid - liquid\n",
  "Lisp - lisp, emacs, elisp, emacs-lisp\n",
  "LiveScript - livescript\n",
  "LLVM IR - llvm\n",
  "Log file - log\n",
  "LOLCODE - lolcode\n",
  "Lua - lua\n",
  "Magma (CAS) - magma\n",
  "Makefile - makefile\n",
  "Markdown - markdown, md\n",
  "Markup templating - markup-templating\n",
  "Mata - mata\n",
  "MATLAB - matlab\n",
  "MAXScript - maxscript\n",
  "MEL - mel\n",
  "Mermaid - mermaid\n",
  "METAFONT - metafont\n",
  "Mizar - mizar\n",
  "MongoDB - mongodb\n",
  "Monkey - monkey\n",
  "MoonScript - moonscript, moon\n",
  "N1QL - n1ql\n",
  "N4JS - n4js, n4jsd\n",
  "Nand To Tetris HDL - nand2tetris-hdl\n",
  "Naninovel Script - naniscript, nani\n",
  "NASM - nasm\n",
  "NEON - neon\n",
  "Nevod - nevod\n",
  "nginx - nginx\n",
  "Nim - nim\n",
  "Nix - nix\n",
  "NSIS - nsis\n",
  "Objective-C - objectivec, objc\n",
  "OCaml - ocaml\n",
  "Odin - odin\n",
  "OpenCL - opencl\n",
  "OpenQasm - openqasm, qasm\n",
  "Oz - oz\n",
  "PARI/GP - parigp\n",
  "Parser - parser\n",
  "Pascal - pascal, objectpascal\n",
  "Pascaligo - pascaligo\n",
  "PATROL Scripting Language - psl\n",
  "PC-Axis - pcaxis, px\n",
  "PeopleCode - peoplecode, pcode\n",
  "Perl - perl\n",
  "PHP - php\n",
  "PHPDoc - phpdoc\n",
  "PHP Extras - php-extras\n",
  "PlantUML - plant-uml, plantuml\n",
  "PL/SQL - plsql\n",
  "PowerQuery - powerquery, pq, mscript\n",
  "PowerShell - powershell\n",
  "Processing - processing\n",
  "Prolog - prolog\n",
  "PromQL - promql\n",
  ".properties - properties\n",
  "Protocol Buffers - protobuf\n",
  "Pug - pug\n",
  "Puppet - puppet\n",
  "Pure - pure\n",
  "PureBasic - purebasic, pbfasm\n",
  "PureScript - purescript, purs\n",
  "Python - python, py\n",
  "Q# - qsharp, qs\n",
  "Q (kdb+ database) - q\n",
  "QML - qml\n",
  "Qore - qore\n",
  "R - r\n",
  "Racket - racket, rkt\n",
  "Razor C# - cshtml, razor\n",
  "React JSX - jsx\n",
  "React TSX - tsx\n",
  "Reason - reason\n",
  "Regex - regex\n",
  "Rego - rego\n",
  "Ren'py - renpy, rpy\n",
  "ReScript - rescript, res\n",
  "reST (reStructuredText) - rest\n",
  "Rip - rip\n",
  "Roboconf - roboconf\n",
  "Robot Framework - robotframework, robot\n",
  "Ruby - ruby, rb\n",
  "Rust - rust\n",
  "SAS - sas\n",
  "Sass (Sass) - sass\n",
  "Sass (SCSS) - scss\n",
  "Scala - scala\n",
  "Scheme - scheme\n",
  "Shell session - shell-session, sh-session, shellsession\n",
  "Smali - smali\n",
  "Smalltalk - smalltalk\n",
  "Smarty - smarty\n",
  "SML - sml, smlnj\n",
  "Solidity (Ethereum) - solidity, sol\n",
  "Solution file - solution-file, sln\n",
  "Soy (Closure Template) - soy\n",
  "SPARQL - sparql, rq\n",
  "Splunk SPL - splunk-spl\n",
  "SQF: Status Quo Function (Arma 3) - sqf\n",
  "SQL - sql\n",
  "Squirrel - squirrel\n",
  "Stan - stan\n",
  "Stata Ado - stata\n",
  "Structured Text (IEC 61131-3) - iecst\n",
  "Stylus - stylus\n",
  "SuperCollider - supercollider, sclang\n",
  "Swift - swift\n",
  "Systemd configuration file - systemd\n",
  "T4 templating - t4-templating\n",
  "T4 Text Templates (C#) - t4-cs, t4\n",
  "T4 Text Templates (VB) - t4-vb\n",
  "TAP - tap\n",
  "Tcl - tcl\n",
  "Template Toolkit 2 - tt2\n",
  "Textile - textile\n",
  "TOML - toml\n",
  "Tremor - tremor, trickle, troy\n",
  "Turtle - turtle, trig\n",
  "Twig - twig\n",
  "TypeScript - typescript, ts\n",
  "TypoScript - typoscript, tsconfig\n",
  "UnrealScript - unrealscript, uscript, uc\n",
  "UO Razor Script - uorazor\n",
  "URI - uri, url\n",
  "V - v\n",
  "Vala - vala\n",
  "VB.Net - vbnet\n",
  "Velocity - velocity\n",
  "Verilog - verilog\n",
  "VHDL - vhdl\n",
  "vim - vim\n",
  "Visual Basic - visual-basic, vb, vba\n",
  "WarpScript - warpscript\n",
  "WebAssembly - wasm\n",
  "Web IDL - web-idl, webidl\n",
  "WGSL - wgsl\n",
  "Wiki markup - wiki\n",
  "Wolfram language - wolfram, mathematica, nb, wl\n",
  "Wren - wren\n",
  "Xeora - xeora, xeoracube\n",
  "XML doc (.net) - xml-doc\n",
  "Xojo (REALbasic) - xojo\n",
  "XQuery - xquery\n",
  "YAML - yaml, yml\n",
  "YANG - yang\n",
  "Zig - zig\n"
  ]

def instructionText : String := rawString [
  "Extract the code from the provided image and determine the programming language. Consider syntax, keywords, and formatting to ensure accuracy.\n",
  "\t\t\t\t\t\t\t\tMap the language to an appropriate tag from the list below. The list has the language first and the tags second, separated by hyphen.\n",
  "\t\t\t\t\t\t\t\tIf there is an exact match for the language name you have identified in the list, use that.\n",
  "                               Return ONLY a JSON object in this exact format (no markdown, no code blocks, no explanations):\n",
  "                               \x7b\n",
  "                                   \"language\": \"the programming language name\",\n",
  "                                   \"code\": \"the exact code from the image\",\n",
  "\t\t\t\t\t\t\t\t   \"tag\": \"the tag that matches the programming language name, selected from the list below\"\n",
  "                               \x7d\n",
  "\t\t\t\t\t\t\t\t   Escape any special characters in the code properly for JSON.\n",
  "\t\t\t\t\t\t\t\t   ### Language list start ###\n",
  "\t\t\t\t\t\t\t\t   "
  ]

/-! ## Reading the catalog as entries -/

/-- One record of the catalog: display name, canonical tag, alias tags. -/
structure TagEntry where
  displayName : List Char
  canonicalTag : List Char
  aliases : List (List Char)
deriving DecidableEq, Repr

/-- Split a text at every line feed; `acc` holds the current line reversed. -/
def splitLines : List Char → List Char → List (List Char)
  | acc, [] => [acc.reverse]
  | acc, c :: t => if c = '\n' then acc.reverse :: splitLines [] t else splitLines (c :: acc) t

/-- Cut a line at the first occurrence of the separator `" - "`. -/
def cutAtDash : List Char → List Char → Option (List Char × List Char)
  | _, [] => none
  | acc, ' ' :: '-' :: ' ' :: t => some (acc.reverse, t)
  | acc, c :: t => cutAtDash (c :: acc) t

/-- Split a tag list at every `", "`. -/
def splitTags : List Char → List Char → List (List Char)
  | acc, [] => [acc.reverse]
  | acc, ',' :: ' ' :: t => acc.reverse :: splitTags [] t
  | acc, c :: t => splitTags (c :: acc) t

/-- A tag is a non-empty word without blanks or commas. -/
def isTag (t : List Char) : Bool :=
  !t.isEmpty && t.all (fun c => c != ' ' && c != ',')

/-- Read one line of the form `Display Name - tag, alias, ...`. -/
def parseLine (l : List Char) : Option TagEntry :=
  match cutAtDash [] l with
  | none => none
  | some (name, rest) =>
    match splitTags [] rest with
    | [] => none
    | tag :: aliases =>
      if !name.isEmpty && (tag :: aliases).all isTag then
        some { displayName := name, canonicalTag := tag, aliases := aliases }
      else none

/-- The non-empty lines of the catalog, in declaration order. -/
def catalogLines : List (List Char) :=
  (splitLines [] languages.toList).filter (fun l => !l.isEmpty)

/-- The canonical tag of every line that reads as an entry. -/
def canonicalTags : List (List Char) :=
  catalogLines.filterMap (fun l => (parseLine l).map TagEntry.canonicalTag)

/-- The text of an entry: `Display Name - tag, alias, ...`. -/
def TagEntry.render (e : TagEntry) : List Char :=
  e.displayName ++ " - ".toList ++ List.intercalate ", ".toList (e.canonicalTag :: e.aliases)

/-- The line reads as an entry and is exactly the text of that entry. -/
def wellFormedLine (l : List Char) : Bool :=
  match parseLine l with
  | some e => decide (e.render = l)
  | none => false

/-- A number for a word: its characters as digits in base 1114112. -/
def wordCode (w : List Char) : Nat := w.foldl (fun acc c => acc * 1114112 + c.toNat) 0

/-- Apply `k` to a number once the number is evaluated. -/
def withValue (n : Nat) (k : Nat → Bool) : Bool :=
  match n with
  | 0 => k 0
  | Nat.succ m => k (Nat.succ m)

def notIn (v : Nat) : List Nat → Bool
  | [] => true
  | y :: ys => !Nat.beq v y && notIn v ys

/-- No number of the list occurs in `seen` or twice in the list. -/
def distinctFrom (seen : List Nat) : List Nat → Bool
  | [] => true
  | x :: xs => withValue x (fun v => notIn v seen && distinctFrom (v :: seen) xs)

/-! ## `encoding/json`: values, the scanner and string unquoting

The scanner is the state machine of `scanner.go`, one step per input
character; beside checking validity it keeps the text of the literal being
read and the containers under construction, so that a valid input yields its
value. -/

/-- A JSON value; a number keeps its literal text, an object its members in
document order. -/
inductive JSON where
  | null : JSON
  | bool : Bool → JSON
  | number : List Char → JSON
  | str : List Char → JSON
  | arr : List JSON → JSON
  | obj : List (List Char × JSON) → JSON
deriving Repr

instance : Inhabited JSON := ⟨JSON.null⟩

namespace json

def maxNestingDepth : Nat := 10000

def isSpace (c : Char) : Bool :=
  c = ' ' || c = '\t' || c = '\r' || c = '\n'

def isDigit (c : Char) : Bool := '0' ≤ c && c ≤ '9'

def isDigit19 (c : Char) : Bool := '1' ≤ c && c ≤ '9'

def isHex (c : Char) : Bool :=
  ('0' ≤ c && c ≤ '9') || ('a' ≤ c && c ≤ 'f') || ('A' ≤ c && c ≤ 'F')

def hexDigit (n : Nat) : Char := "0123456789abcdef".toList.getD n '0'

/-- First byte of the UTF-8 encoding of a character: the byte the scanner is
looking at when it rejects the character. -/
def firstByte (c : Char) : Nat :=
  let n := c.toNat
  if n < 0x80 then n
  else if n < 0x800 then 0xC0 + n / 0x40
  else if n < 0x10000 then 0xE0 + n / 0x1000
  else 0xF0 + n / 0x40000

/-- Body of `strconv.Quote(string(rune(b)))` for one byte value `b`, without
the surrounding double quotes. -/
def quoteByte (b : Nat) : List Char :=
  if b = 0x5C then ['\\', '\\']
  else if b = 7 then ['\\', 'a']
  else if b = 8 then ['\\', 'b']
  else if b = 12 then ['\\', 'f']
  else if b = 10 then ['\\', 'n']
  else if b = 13 then ['\\', 'r']
  else if b = 9 then ['\\', 't']
  else if b = 11 then ['\\', 'v']
  else if b < 0x20 || b = 0x7F then ['\\', 'x', hexDigit (b / 16), hexDigit (b % 16)]
  else if (0x80 ≤ b && b ≤ 0xA0) || b = 0xAD then
    ['\\', 'u', '0', '0', hexDigit (b / 16), hexDigit (b % 16)]
  else [Char.ofNat b]

/-- `quoteChar` of scanner.go, applied to the first byte of `c`. -/
def quoteChar (c : Char) : List Char :=
  if c = '\'' then ['\'', '\\', '\'', '\'']
  else if c = '"' then ['\'', '"', '\'']
  else '\'' :: quoteByte (firstByte c) ++ ['\'']

/-- Value of a hexadecimal digit. -/
def hexVal (c : Char) : Nat :=
  if '0' ≤ c && c ≤ '9' then c.toNat - '0'.toNat
  else if 'a' ≤ c && c ≤ 'f' then c.toNat - 'a'.toNat + 10
  else if 'A' ≤ c && c ≤ 'F' then c.toNat - 'A'.toNat + 10
  else 0

/-- `getu4`: the code unit of a leading `\uXXXX`, if the text starts with one. -/
def getu4 : List Char → Option Nat
  | '\\' :: 'u' :: a :: b :: c :: d :: _ =>
    if isHex a && isHex b && isHex c && isHex d then
      some (((hexVal a * 16 + hexVal b) * 16 + hexVal c) * 16 + hexVal d)
    else none
  | _ => none

def isSurrogate (r : Nat) : Bool := 0xD800 ≤ r && r < 0xE000

/-- `utf16.DecodeRune`: the code point of a surrogate pair, or U+FFFD. -/
def decodeRune (r1 r2 : Nat) : Nat :=
  if 0xD800 ≤ r1 && r1 < 0xDC00 && 0xDC00 ≤ r2 && r2 < 0xE000 then
    (r1 - 0xD800) * 0x400 + (r2 - 0xDC00) + 0x10000
  else 0xFFFD

def replacementChar : Char := Char.ofNat 0xFFFD

/-- `unquoteBytes` on the text between the quotes of a string literal the
scanner accepted. The first argument counts characters still to be skipped
(the second escape of a surrogate pair). -/
def unquote : Nat → List Char → List Char
  | _, [] => []
  | n + 1, _ :: t => unquote n t
  | 0, '\\' :: 'u' :: a :: b :: c :: d :: t =>
    let rr := ((hexVal a * 16 + hexVal b) * 16 + hexVal c) * 16 + hexVal d
    if isSurrogate rr then
      match getu4 t with
      | some rr1 =>
        if decodeRune rr rr1 ≠ 0xFFFD then Char.ofNat (decodeRune rr rr1) :: unquote 6 t
        else replacementChar :: unquote 0 t
      | none => replacementChar :: unquote 0 t
    else Char.ofNat rr :: unquote 0 t
  | 0, '\\' :: e :: t =>
    (if e = 'b' then Char.ofNat 8
     else if e = 'f' then Char.ofNat 12
     else if e = 'n' then '\n'
     else if e = 'r' then '\r'
     else if e = 't' then '\t'
     else e) :: unquote 0 t
  | 0, c :: t => c :: unquote 0 t

/-- The step functions of the scanner (`s.step`). -/
inductive Step where
  | BeginValueOrEmpty | BeginValue | BeginStringOrEmpty | BeginString
  | EndValue | EndTop
  | InString | InStringEsc | InStringEscU | InStringEscU1 | InStringEscU12 | InStringEscU123
  | Neg | S1 | S0 | Dot | Dot0 | E | ESign | E0
  | T | Tr | Tru | F | Fa | Fal | Fals | N | Nu | Nul
  | Error
deriving DecidableEq, Repr

/-- An entry of `parseState`, with the part of the container read so far. -/
inductive Frame where
  | ObjectKey : List (List Char × JSON) → Frame
  | ObjectValue : List (List Char × JSON) → List Char → Frame
  | ArrayValue : List JSON → Frame
deriving Repr

/-- The scanner: `step`, `parseState` (innermost first), `err` and `endTop`
as in scanner.go; `lit` is the text of the literal being read and `cur` the
value completed last. -/
structure Scanner where
  step : Step
  parseState : List Frame
  err : Option (List Char)
  endTop : Bool
  lit : List Char
  cur : Option JSON
deriving Repr

def Scanner.reset : Scanner :=
  { step := .BeginValue, parseState := [], err := none, endTop := false, lit := [], cur := none }

def Scanner.error (s : Scanner) (c : Char) (context : String) : Scanner :=
  { s with step := .Error,
           err := some ("invalid character ".toList ++ quoteChar c ++ ' ' :: context.toList) }

def Scanner.pushParseState (s : Scanner) (c : Char) (newParseState : Frame) (successState : Step) :
    Scanner :=
  let s1 := { s with parseState := newParseState :: s.parseState }
  if s1.parseState.length ≤ maxNestingDepth then { s1 with step := successState }
  else s1.error c "exceeded max depth"

def Scanner.popParseState (s : Scanner) : Scanner :=
  match s.parseState.tail with
  | [] => { s with parseState := [], step := .EndTop, endTop := true }
  | rest => { s with parseState := rest, step := .EndValue }

def stateEndTop (s : Scanner) (c : Char) : Scanner :=
  if !isSpace c then s.error c "after top-level value" else s

/-- The key an object member gets from the string read before the colon. -/
def keyOf : Option JSON → List Char
  | some (.str k) => k
  | _ => []

def stateEndValue (s : Scanner) (c : Char) : Scanner :=
  match s.parseState with
  | [] => stateEndTop { s with step := .EndTop, endTop := true } c
  | ps :: rest =>
    if isSpace c then { s with step := .EndValue }
    else
      match ps with
      | .ObjectKey members =>
        if c = ':' then
          { s with parseState := .ObjectValue members (keyOf s.cur) :: rest,
                   step := .BeginValue, cur := none }
        else s.error c "after object key"
      | .ObjectValue members key =>
        if c = ',' then
          { s with parseState := .ObjectKey (members ++ (s.cur.toList.map (fun v => (key, v)))) :: rest,
                   step := .BeginString, cur := none }
        else if c = '}' then
          Scanner.popParseState
            { s with cur := some (.obj (members ++ (s.cur.toList.map (fun v => (key, v))))) }
        else s.error c "after object key:value pair"
      | .ArrayValue elems =>
        if c = ',' then
          { s with parseState := .ArrayValue (elems ++ s.cur.toList) :: rest,
                   step := .BeginValue, cur := none }
        else if c = ']' then
          Scanner.popParseState { s with cur := some (.arr (elems ++ s.cur.toList)) }
        else s.error c "after array element"

def stateBeginValue (s : Scanner) (c : Char) : Scanner :=
  if isSpace c then s
  else if c = '{' then s.pushParseState c (.ObjectKey []) .BeginStringOrEmpty
  else if c = '[' then s.pushParseState c (.ArrayValue []) .BeginValueOrEmpty
  else if c = '"' then { s with step := .InString, lit := [] }
  else if c = '-' then { s with step := .Neg, lit := [c] }
  else if c = '0' then { s with step := .S0, lit := [c] }
  else if c = 't' then { s with step := .T }
  else if c = 'f' then { s with step := .F }
  else if c = 'n' then { s with step := .N }
  else if isDigit19 c then { s with step := .S1, lit := [c] }
  else s.error c "looking for beginning of value"

def stateBeginValueOrEmpty (s : Scanner) (c : Char) : Scanner :=
  if isSpace c then s
  else if c = ']' then stateEndValue s c
  else stateBeginValue s c

def stateBeginString (s : Scanner) (c : Char) : Scanner :=
  if isSpace c then s
  else if c = '"' then { s with step := .InString, lit := [] }
  else s.error c "looking for beginning of object key string"

/-- On `}` scanner.go marks the frame `parseObjectValue` and runs
`stateEndValue`, which pops it: the object has no member. -/
def stateBeginStringOrEmpty (s : Scanner) (c : Char) : Scanner :=
  if isSpace c then s
  else if c = '}' then Scanner.popParseState { s with cur := some (.obj []) }
  else stateBeginString s c

def stateInString (s : Scanner) (c : Char) : Scanner :=
  if c = '"' then { s with step := .EndValue, cur := some (.str (unquote 0 s.lit)), lit := [] }
  else if c = '\\' then { s with step := .InStringEsc, lit := s.lit ++ [c] }
  else if c.toNat < 0x20 then s.error c "in string literal"
  else { s with lit := s.lit ++ [c] }

def stateInStringEsc (s : Scanner) (c : Char) : Scanner :=
  if c = 'b' || c = 'f' || c = 'n' || c = 'r' || c = 't' || c = '\\' || c = '/' || c = '"' then
    { s with step := .InString, lit := s.lit ++ [c] }
  else if c = 'u' then { s with step := .InStringEscU, lit := s.lit ++ [c] }
  else s.error c "in string escape code"

def stateInStringEscUn (next : Step) (s : Scanner) (c : Char) : Scanner :=
  if isHex c then { s with step := next, lit := s.lit ++ [c] }
  else s.error c "in \\u hexadecimal character escape"

/-- End of a number: the literal read so far is the value; the character is
then handled by `stateEndValue`. -/
def endNumber (s : Scanner) (c : Char) : Scanner :=
  stateEndValue { s with cur := some (.number s.lit), lit := [] } c

def state0 (s : Scanner) (c : Char) : Scanner :=
  if c = '.' then { s with step := .Dot, lit := s.lit ++ [c] }
  else if c = 'e' || c = 'E' then { s with step := .E, lit := s.lit ++ [c] }
  else endNumber s c

def state1 (s : Scanner) (c : Char) : Scanner :=
  if isDigit c then { s with step := .S1, lit := s.lit ++ [c] }
  else state0 s c

def stateNeg (s : Scanner) (c : Char) : Scanner :=
  if c = '0' then { s with step := .S0, lit := s.lit ++ [c] }
  else if isDigit19 c then { s with step := .S1, lit := s.lit ++ [c] }
  else s.error c "in numeric literal"

def stateDot (s : Scanner) (c : Char) : Scanner :=
  if isDigit c then { s with step := .Dot0, lit := s.lit ++ [c] }
  else s.error c "after decimal point in numeric literal"

def stateDot0 (s : Scanner) (c : Char) : Scanner :=
  if isDigit c then { s with lit := s.lit ++ [c] }
  else if c = 'e' || c = 'E' then { s with step := .E, lit := s.lit ++ [c] }
  else endNumber s c

def stateESign (s : Scanner) (c : Char) : Scanner :=
  if isDigit c then { s with step := .E0, lit := s.lit ++ [c] }
  else s.error c "in exponent of numeric literal"

def stateE (s : Scanner) (c : Char) : Scanner :=
  if c = '+' || c = '-' then { s with step := .ESign, lit := s.lit ++ [c] }
  else stateESign s c

def stateE0 (s : Scanner) (c : Char) : Scanner :=
  if isDigit c then { s with lit := s.lit ++ [c] }
  else endNumber s c

/-- A letter of `true`, `false` or `null` after the first. -/
def stateLetter (want : Char) (next : Step) (context : String) (s : Scanner) (c : Char) : Scanner :=
  if c = want then { s with step := next } else s.error c context

/-- The last letter of `true`, `false` or `null`: the literal is complete. -/
def stateLastLetter (want : Char) (v : JSON) (context : String) (s : Scanner) (c : Char) :
    Scanner :=
  if c = want then { s with step := .EndValue, cur := some v } else s.error c context

/-- One call `s.step(s, c)`. -/
def Scanner.next (s : Scanner) (c : Char) : Scanner :=
  match s.step with
  | .BeginValueOrEmpty => stateBeginValueOrEmpty s c
  | .BeginValue => stateBeginValue s c
  | .BeginStringOrEmpty => stateBeginStringOrEmpty s c
  | .BeginString => stateBeginString s c
  | .EndValue => stateEndValue s c
  | .EndTop => stateEndTop s c
  | .InString => stateInString s c
  | .InStringEsc => stateInStringEsc s c
  | .InStringEscU => stateInStringEscUn .InStringEscU1 s c
  | .InStringEscU1 => stateInStringEscUn .InStringEscU12 s c
  | .InStringEscU12 => stateInStringEscUn .InStringEscU123 s c
  | .InStringEscU123 => stateInStringEscUn .InString s c
  | .Neg => stateNeg s c
  | .S1 => state1 s c
  | .S0 => state0 s c
  | .Dot => stateDot s c
  | .Dot0 => stateDot0 s c
  | .E => stateE s c
  | .ESign => stateESign s c
  | .E0 => stateE0 s c
  | .T => stateLetter 'r' .Tr "in literal true (expecting 'r')" s c
  | .Tr => stateLetter 'u' .Tru "in literal true (expecting 'u')" s c
  | .Tru => stateLastLetter 'e' (.bool true) "in literal true (expecting 'e')" s c
  | .F => stateLetter 'a' .Fa "in literal false (expecting 'a')" s c
  | .Fa => stateLetter 'l' .Fal "in literal false (expecting 'l')" s c
  | .Fal => stateLetter 's' .Fals "in literal false (expecting 's')" s c
  | .Fals => stateLastLetter 'e' (.bool false) "in literal false (expecting 'e')" s c
  | .N => stateLetter 'u' .Nu "in literal null (expecting 'u')" s c
  | .Nu => stateLetter 'l' .Nul "in literal null (expecting 'l')" s c
  | .Nul => stateLastLetter 'l' .null "in literal null (expecting 'l')" s c
  | .Error => s

/-- The call `s.eof()`: the error, or the value read. -/
def Scanner.eof (s : Scanner) : Except (List Char) JSON :=
  match s.err with
  | some e => .error e
  | none =>
    if s.endTop then .ok (s.cur.getD .null)
    else
      let s1 := s.next ' '
      if s1.endTop then .ok (s1.cur.getD .null)
      else
        match s1.err with
        | some e => .error e
        | none => .error "unexpected end of JSON input".toList

/-- The function `checkValid` together with the value the decoder then reads:
the syntax error of the input, or its value. -/
def checkValid (data : List Char) : Except (List Char) JSON :=
  (data.foldl Scanner.next Scanner.reset).eof

end json

namespace json

/-! ### Decoding into the Go types of `handlers.go` -/

/-- The error `*json.UnmarshalTypeError`. -/
structure UnmarshalTypeError where
  Value : String
  Type_ : String
  Struct : String
  Field : String
deriving DecidableEq, Repr

def UnmarshalTypeError.Error (e : UnmarshalTypeError) : String :=
  if e.Struct ≠ "" || e.Field ≠ "" then
    "json: cannot unmarshal " ++ e.Value ++ " into Go struct field " ++ e.Struct ++ "." ++ e.Field
      ++ " of type " ++ e.Type_
  else "json: cannot unmarshal " ++ e.Value ++ " into Go value of type " ++ e.Type_

/-- The decoder's `errorContext`: the struct being filled and the path of
field names leading to the value being decoded. -/
structure errorContext where
  Struct : String := ""
  FieldStack : List String := []

/-- The call `d.saveError`: only the first error is kept. -/
def saveError (saved : Option UnmarshalTypeError) (ctx : errorContext) (value typ : String) :
    Option UnmarshalTypeError :=
  match saved with
  | some e => some e
  | none => some { Value := value, Type_ := typ, Struct := ctx.Struct,
                   Field := ".".intercalate ctx.FieldStack }

/-- What `UnmarshalTypeError.Value` says of a JSON value. -/
def describe : JSON → String
  | .null => "null"
  | .bool _ => "bool"
  | .number _ => "number"
  | .str _ => "string"
  | .arr _ => "array"
  | .obj _ => "object"

/-- Case folding of a key character as far as it can meet an ASCII letter:
lower case to upper case, the long s and the Kelvin sign to `S` and `K`. -/
def foldRune (c : Char) : Char :=
  if 'a' ≤ c && c ≤ 'z' then Char.ofNat (c.toNat - 32)
  else if c = Char.ofNat 0x17F then 'S'
  else if c = Char.ofNat 0x212A then 'K'
  else c

def foldName (s : List Char) : List Char := s.map foldRune

/-- The field a member name selects among the (ASCII) JSON names of a struct:
the one spelled exactly so, otherwise the first equal to it under case
folding. -/
def findField (names : List String) (key : List Char) : Option String :=
  match names.find? (fun n => n.toList = key) with
  | some n => some n
  | none => names.find? (fun n => foldName n.toList = foldName key)

/-- Decoding a value into a Go `string`: a string is stored, `null` leaves the
target as it is, every other value is a type error. -/
def decodeString (ctx : errorContext) (j : JSON) (v : String) (saved : Option UnmarshalTypeError) :
    String × Option UnmarshalTypeError :=
  match j with
  | .str s => (String.mk s, saved)
  | .null => (v, saved)
  | other => (v, saveError saved ctx (describe other) "string")

end json

/-! ## The types of `handlers.go` -/

structure Image where
  Url : String := ""
  Base64 : String := ""
deriving DecidableEq, Repr

structure Content where
  Type_ : String := ""
  Text : String := ""
  ImageURL : Option Image := none
deriving DecidableEq, Repr

structure Message where
  Role : String := ""
  Content : List Content := []
deriving DecidableEq, Repr

structure OpenAIRequest where
  Model : String := ""
  Messages : List Message := []
deriving DecidableEq, Repr

/-- The anonymous struct `Message` of a choice. -/
structure ChoiceMessage where
  Content : String := ""
deriving DecidableEq, Repr

/-- An element of `OpenAIResponse.Choices`. -/
structure Choice where
  Message : ChoiceMessage := {}
deriving DecidableEq, Repr

/-- The anonymous struct behind `OpenAIResponse.Error`. -/
structure APIError where
  Message : String := ""
deriving DecidableEq, Repr

structure OpenAIResponse where
  Choices : List Choice := []
  Error : Option APIError := none
deriving DecidableEq, Repr

structure ExtractedCode where
  Language : String := ""
  Code : String := ""
  Tag : String := ""
deriving DecidableEq, Repr

namespace json

def typeMessage : String := "struct \x7b Content string \"json:\\\"content\\\"\" \x7d"

def typeChoice : String := "struct \x7b Message " ++ typeMessage ++ " \"json:\\\"message\\\"\" \x7d"

def typeAPIError : String := "struct \x7b Message string \"json:\\\"message\\\"\" \x7d"

/-- The JSON names of the fields of `ExtractedCode`. -/
def extractedCodeFields : List String := ["language", "code", "tag"]

/-- One member of an object decoded into `ExtractedCode`: the value goes into
the field the member name selects; a member of another name is skipped. -/
def storeExtractedCode (ctx : errorContext) (acc : ExtractedCode × Option UnmarshalTypeError)
    (m : List Char × JSON) : ExtractedCode × Option UnmarshalTypeError :=
  match findField extractedCodeFields m.1 with
  | some f =>
    let ctx1 : errorContext := { Struct := "ExtractedCode", FieldStack := ctx.FieldStack ++ [f] }
    if f = "language" then
      let r := decodeString ctx1 m.2 acc.1.Language acc.2
      ({ acc.1 with Language := r.1 }, r.2)
    else if f = "code" then
      let r := decodeString ctx1 m.2 acc.1.Code acc.2
      ({ acc.1 with Code := r.1 }, r.2)
    else
      let r := decodeString ctx1 m.2 acc.1.Tag acc.2
      ({ acc.1 with Tag := r.1 }, r.2)
  | none => acc

/-- Decoding into `ExtractedCode`: the members of an object are taken in
document order; `null` changes nothing; any other value is a type error. -/
def decodeExtractedCode (ctx : errorContext) (j : JSON) (v : ExtractedCode)
    (saved : Option UnmarshalTypeError) : ExtractedCode × Option UnmarshalTypeError :=
  match j with
  | .obj members => members.foldl (storeExtractedCode ctx) (v, saved)
  | .null => (v, saved)
  | other => (v, saveError saved ctx (describe other) "main.ExtractedCode")

/-- Decoding into the `Message` struct of a choice. -/
def decodeChoiceMessage (ctx : errorContext) (j : JSON) (v : ChoiceMessage)
    (saved : Option UnmarshalTypeError) : ChoiceMessage × Option UnmarshalTypeError :=
  match j with
  | .obj members =>
    members.foldl (fun (acc : ChoiceMessage × Option UnmarshalTypeError) (m : List Char × JSON) =>
      match findField ["content"] m.1 with
      | some f =>
        let r := decodeString { Struct := "", FieldStack := ctx.FieldStack ++ [f] } m.2
          acc.1.Content acc.2
        ({ acc.1 with Content := r.1 }, r.2)
      | none => acc) (v, saved)
  | .null => (v, saved)
  | other => (v, saveError saved ctx (describe other) typeMessage)

/-- Decoding into an element of `Choices`. -/
def decodeChoice (ctx : errorContext) (j : JSON) (v : Choice)
    (saved : Option UnmarshalTypeError) : Choice × Option UnmarshalTypeError :=
  match j with
  | .obj members =>
    members.foldl (fun (acc : Choice × Option UnmarshalTypeError) (m : List Char × JSON) =>
      match findField ["message"] m.1 with
      | some f =>
        let r := decodeChoiceMessage { Struct := "", FieldStack := ctx.FieldStack ++ [f] } m.2
          acc.1.Message acc.2
        ({ acc.1 with Message := r.1 }, r.2)
      | none => acc) (v, saved)
  | .null => (v, saved)
  | other => (v, saveError saved ctx (describe other) typeChoice)

/-- The elements of an array decoded into a slice: element `i` is decoded into
the element the slice already has at `i`, or into a zero element past its
length; the slice ends with the array. -/
def decodeChoiceElems (ctx : errorContext) :
    List JSON → List Choice → Option UnmarshalTypeError → List Choice × Option UnmarshalTypeError
  | [], _, saved => ([], saved)
  | x :: xs, [], saved =>
    let r := decodeChoice ctx x {} saved
    let rest := decodeChoiceElems ctx xs [] r.2
    (r.1 :: rest.1, rest.2)
  | x :: xs, c :: cs, saved =>
    let r := decodeChoice ctx x c saved
    let rest := decodeChoiceElems ctx xs cs r.2
    (r.1 :: rest.1, rest.2)

/-- Decoding into the slice `Choices`: an array fills it, `null` empties it. -/
def decodeChoices (ctx : errorContext) (j : JSON) (v : List Choice)
    (saved : Option UnmarshalTypeError) : List Choice × Option UnmarshalTypeError :=
  match j with
  | .arr elems => decodeChoiceElems ctx elems v saved
  | .null => ([], saved)
  | other => (v, saveError saved ctx (describe other) ("[]" ++ typeChoice))

/-- Decoding into the struct behind the pointer `Error`. -/
def decodeAPIError (ctx : errorContext) (j : JSON) (v : APIError)
    (saved : Option UnmarshalTypeError) : APIError × Option UnmarshalTypeError :=
  match j with
  | .obj members =>
    members.foldl (fun (acc : APIError × Option UnmarshalTypeError) (m : List Char × JSON) =>
      match findField ["message"] m.1 with
      | some f =>
        let r := decodeString { Struct := "", FieldStack := ctx.FieldStack ++ [f] } m.2
          acc.1.Message acc.2
        ({ acc.1 with Message := r.1 }, r.2)
      | none => acc) (v, saved)
  | .null => (v, saved)
  | other => (v, saveError saved ctx (describe other) typeAPIError)

/-- Decoding into the pointer `Error`: `null` sets it to nil; any other value
allocates the struct if the pointer is nil and is decoded into it. -/
def decodeErrorPtr (ctx : errorContext) (j : JSON) (v : Option APIError)
    (saved : Option UnmarshalTypeError) : Option APIError × Option UnmarshalTypeError :=
  match j with
  | .null => (none, saved)
  | other =>
    let r := decodeAPIError ctx other (v.getD {}) saved
    (some r.1, r.2)

/-- Decoding into `OpenAIResponse`. -/
def decodeOpenAIResponse (ctx : errorContext) (j : JSON) (v : OpenAIResponse)
    (saved : Option UnmarshalTypeError) : OpenAIResponse × Option UnmarshalTypeError :=
  match j with
  | .obj members =>
    members.foldl (fun (acc : OpenAIResponse × Option UnmarshalTypeError) (m : List Char × JSON) =>
      match findField ["choices", "error"] m.1 with
      | some f =>
        let ctx1 : errorContext :=
          { Struct := "OpenAIResponse", FieldStack := ctx.FieldStack ++ [f] }
        if f = "choices" then
          let r := decodeChoices ctx1 m.2 acc.1.Choices acc.2
          ({ acc.1 with Choices := r.1 }, r.2)
        else
          let r := decodeErrorPtr ctx1 m.2 acc.1.Error acc.2
          ({ acc.1 with Error := r.1 }, r.2)
      | none => acc) (v, saved)
  | .null => (v, saved)
  | other => (v, saveError saved ctx (describe other) "main.OpenAIResponse")

/-- The call `json.Unmarshal(data, &v)` for a target decoded by `decode`: the
value of `v` afterwards and the error returned. A syntax error leaves `v`
untouched; a type error is reported after the whole input has been decoded. -/
def Unmarshal {α : Type}
    (decode : errorContext → JSON → α → Option UnmarshalTypeError → α × Option UnmarshalTypeError)
    (data : String) (v : α) : α × Option String :=
  match checkValid data.toList with
  | .error e => (v, some (String.mk e))
  | .ok j =>
    let r := decode {} j v none
    (r.1, r.2.map UnmarshalTypeError.Error)

end json

namespace json

/-! ### Encoding -/

/-- The set `htmlSafeSet`: the ASCII characters written as they are. -/
def htmlSafe (c : Char) : Bool :=
  0x20 ≤ c.toNat && c.toNat < 0x80 && c ≠ '"' && c ≠ '&' && c ≠ '<' && c ≠ '>' && c ≠ '\\'

/-- What `appendString` writes for one character, with `escapeHTML` set. -/
def escapeChar (c : Char) : List Char :=
  if c.toNat < 0x80 then
    if htmlSafe c then [c]
    else if c = '\\' || c = '"' then ['\\', c]
    else if c.toNat = 8 then ['\\', 'b']
    else if c.toNat = 12 then ['\\', 'f']
    else if c = '\n' then ['\\', 'n']
    else if c = '\r' then ['\\', 'r']
    else if c = '\t' then ['\\', 't']
    else ['\\', 'u', '0', '0', hexDigit (c.toNat / 16), hexDigit (c.toNat % 16)]
  else if c.toNat = 0x2028 || c.toNat = 0x2029 then
    ['\\', 'u', '2', '0', '2', hexDigit (c.toNat % 16)]
  else [c]

/-- The function `appendString`: a Go string as a JSON string literal. -/
def appendString (s : String) : List Char :=
  '"' :: s.toList.foldr (fun c acc => escapeChar c ++ acc) ['"']

/-- Members of an object between braces, separated by commas. -/
def object (members : List (List Char)) : List Char :=
  '{' :: (List.intercalate [','] members) ++ ['}']

/-- Elements of an array between brackets, separated by commas. -/
def array (elems : List (List Char)) : List Char :=
  '[' :: (List.intercalate [','] elems) ++ [']']

def member (name : String) (value : List Char) : List Char :=
  appendString name ++ ':' :: value

def encodeImage (i : Image) : List Char :=
  object ((if i.Url = "" then [] else [member "url" (appendString i.Url)])
    ++ (if i.Base64 = "" then [] else [member "base64" (appendString i.Base64)]))

def encodeContent (c : Content) : List Char :=
  object ([member "type" (appendString c.Type_)]
    ++ (if c.Text = "" then [] else [member "text" (appendString c.Text)])
    ++ (match c.ImageURL with
        | none => []
        | some i => [member "image_url" (encodeImage i)]))

def encodeMessage (m : Message) : List Char :=
  object [member "role" (appendString m.Role), member "content" (array (m.Content.map encodeContent))]

/-- The call `json.Marshal(request)`; it has no error case for this type. -/
def MarshalRequest (r : OpenAIRequest) : String :=
  String.mk (object [member "model" (appendString r.Model),
    member "messages" (array (r.Messages.map encodeMessage))])

/-- The function `json.Marshal` on an `ExtractedCode`. -/
def MarshalExtractedCode (v : ExtractedCode) : String :=
  String.mk (object [member "language" (appendString v.Language),
    member "code" (appendString v.Code), member "tag" (appendString v.Tag)])

/-- What `json.NewEncoder(w).Encode(code)` writes for a `*ExtractedCode`: the
encoding of the value, `null` for a nil pointer, and a line feed. -/
def EncodeExtractedCode (code : Option ExtractedCode) : String :=
  match code with
  | none => "null\n"
  | some v => MarshalExtractedCode v ++ "\n"

end json

/-! ## `encoding/base64` -/

abbrev Byte := Fin 256

namespace base64

def encodeStd : String := "ABCDEFGHIJKLMNOPQRSTUVWXYZabcdefghijklmnopqrstuvwxyz0123456789+/"

/-- The character of a 6-bit value in the standard alphabet. -/
def encode (v : Nat) : Char := encodeStd.toList.getD (v % 64) 'A'

/-- The method `Encode` of `StdEncoding`: three bytes give four characters; a
remainder of one or two bytes is padded with `=`. -/
def encodeChars : List Byte → List Char
  | a :: b :: c :: rest =>
    let val := a.val * 65536 + b.val * 256 + c.val
    encode (val / 262144) :: encode (val / 4096) :: encode (val / 64) :: encode val
      :: encodeChars rest
  | [a, b] =>
    let val := a.val * 65536 + b.val * 256
    [encode (val / 262144), encode (val / 4096), encode (val / 64), '=']
  | [a] =>
    let val := a.val * 65536
    [encode (val / 262144), encode (val / 4096), '=', '=']
  | [] => []

def StdEncoding.EncodeToString (src : List Byte) : String := String.mk (encodeChars src)

/-! ### The encoding as RFC 4648 words it -/

/-- The eight bits of a byte, most significant first. -/
def bits (b : Byte) : List Nat :=
  [b.val / 128 % 2, b.val / 64 % 2, b.val / 32 % 2, b.val / 16 % 2,
   b.val / 8 % 2, b.val / 4 % 2, b.val / 2 % 2, b.val % 2]

/-- The number a group of bits spells, most significant first. -/
def value (g : List Nat) : Nat := g.foldl (fun acc b => 2 * acc + b) 0

/-- A bit string cut into groups of six; zero bits fill the last group. -/
def groups : List Nat → List (List Nat)
  | b0 :: b1 :: b2 :: b3 :: b4 :: b5 :: rest => [b0, b1, b2, b3, b4, b5] :: groups rest
  | [] => []
  | short => [short ++ List.replicate (6 - short.length) 0]

/-- The 6-bit values of the input: its bits in groups of six. -/
def sextets (src : List Byte) : List Nat := (groups (src.flatMap bits)).map value

/-- RFC 4648: the bits of the input in groups of six, each group written as
its character of the alphabet, and `=` signs up to a multiple of four. -/
def rfc4648 (src : List Byte) : List Char :=
  (sextets src).map (fun v => encodeStd.toList.getD v 'A')
    ++ List.replicate ((4 - (sextets src).length % 4) % 4) '='

end base64

/-! ## The extraction client (`extractCodeFromImage`) -/

/-- The request handed to `client.Do`. -/
structure HTTPRequest where
  Method : String
  URL : String
  Header : List (String × String)
  Body : String
deriving DecidableEq, Repr

/-- The answer of the upstream service: its status code and what
`io.ReadAll(resp.Body)` returns, the body or a read error. -/
structure HTTPResponse where
  StatusCode : Nat
  Body : Except String String

deriving instance DecidableEq for Except

/-- The upstream exchange `client.Do(req)`: a response or a transport error. -/
abbrev Client := HTTPRequest → Except String HTTPResponse


/-- The value `request` built at the start of `extractCodeFromImage`. -/
def extractCodeFromImage.request (imageData : List Byte) : OpenAIRequest :=
  let base64Data := base64.StdEncoding.EncodeToString imageData
  { Model := "gpt-4o-mini",
    Messages := [
      { Role := "user",
        Content := [
          { Type_ := "text",
            Text := instructionText ++ languages },
          { Type_ := "image_url",
            ImageURL := some { Url := "data:image/jpeg;base64," ++ base64Data } }] }] }

/-- The HTTP request `req` with its two headers; `getenv` is `os.Getenv`. -/
def extractCodeFromImage.req (getenv : String → String) (imageData : List Byte) : HTTPRequest :=
  { Method := "POST",
    URL := "https://api.openai.com/v1/chat/completions",
    Header := [("Content-Type", "application/json"),
               ("Authorization", "Bearer " ++ getenv "OPENAI_API_KEY")],
    Body := json.MarshalRequest (extractCodeFromImage.request imageData) }

/-- The function `extractCodeFromImage`, with the environment and the upstream
exchange as parameters. The result is `(&extractedCode, nil)` or `(nil, err)`
with `err` the message of the `fmt.Errorf` error. `json.Marshal` and
`http.NewRequest` cannot fail on the values built here. -/
def extractCodeFromImage (getenv : String → String) (client : Client) (imageData : List Byte) :
    Except String ExtractedCode :=
  match client (extractCodeFromImage.req getenv imageData) with
  | .error err => .error ("error making request: " ++ err)
  | .ok resp =>
    match resp.Body with
    | .error err => .error ("error reading response: " ++ err)
    | .ok body =>
      if resp.StatusCode ≠ 200 then
        .error ("API request failed with status " ++ Nat.repr resp.StatusCode ++ ": " ++ body)
      else
        match json.Unmarshal json.decodeOpenAIResponse body {} with
        | (_, some err) => .error ("error parsing response: " ++ err)
        | (apiResponse, none) =>
          match apiResponse.Error with
          | some e => .error ("API error: " ++ e.Message)
          | none =>
            match apiResponse.Choices with
            | [] => .error "no content in response"
            | choice :: _ =>
              match json.Unmarshal json.decodeExtractedCode choice.Message.Content {} with
              | (_, some err) => .error ("error parsing structured response: " ++ err)
              | (extractedCode, none) => .ok extractedCode

/-! ## The HTTP boundary (`postImageHandler`) -/

namespace http

def StatusBadRequest : Nat := 400

def StatusOK : Nat := 200

/-- A `http.ResponseWriter`: the header map, the status and header sent by the
first `WriteHeader`, and the body written so far. -/
structure ResponseWriter where
  header : List (String × String) := []
  status : Option Nat := none
  sent : List (String × String) := []
  body : String := ""
deriving DecidableEq, Repr

def Header.Del (h : List (String × String)) (key : String) : List (String × String) :=
  h.filter (fun kv => kv.1 ≠ key)

def Header.Set (h : List (String × String)) (key value : String) : List (String × String) :=
  Header.Del h key ++ [(key, value)]

/-- The first call fixes status and header; later calls change nothing. -/
def ResponseWriter.WriteHeader (w : ResponseWriter) (code : Nat) : ResponseWriter :=
  match w.status with
  | some _ => w
  | none => { w with status := some code, sent := w.header }

/-- A write sends status 200 first if no header was sent yet. -/
def ResponseWriter.Write (w : ResponseWriter) (data : String) : ResponseWriter :=
  let w1 := w.WriteHeader StatusOK
  { w1 with body := w1.body ++ data }

/-- The function `http.Error`: plain-text headers, the status, the message and a line feed. -/
def Error (w : ResponseWriter) (error : String) (code : Nat) : ResponseWriter :=
  let h := Header.Set (Header.Set (Header.Del w.header "Content-Length")
    "Content-Type" "text/plain; charset=utf-8") "X-Content-Type-Options" "nosniff"
  ResponseWriter.Write (ResponseWriter.WriteHeader { w with header := h } code) (error ++ "\n")

/-- An uploaded file as the handler reads it: the bytes `io.Copy` gets before
the stream ends, and the read error that ends it, if any. -/
structure File where
  data : List Byte
  readErr : Option String := none

/-- A `multipart.FileHeader`: what `Open` returns. -/
structure FileHeader where
  Open : Except String File

/-- The parsed form: file headers by form field name. -/
structure Form where
  File : List (String × List FileHeader)

/-- An inbound request, as far as the handler looks at it: what
`r.ParseMultipartForm(0)` returns. -/
structure Request where
  ParseMultipartForm : Except String Form

/-- The errors of `r.FormFile`: the sentinel `http.ErrMissingFile`, or the
error of opening the file. -/
inductive FormFileError where
  | ErrMissingFile : FormFileError
  | other : String → FormFileError

/-- The method `FormFile` on a parsed form: the first file under `key`. -/
def FormFile (form : Form) (key : String) : Except FormFileError File :=
  match form.File.lookup key with
  | some (fh :: _) =>
    match fh.Open with
    | .ok f => .ok f
    | .error e => .error (.other e)
  | _ => .error .ErrMissingFile

end http

/-- What a run of the handler leaves behind: the response, and the buffers
passed to the extraction function, in call order. -/
structure Handled where
  w : http.ResponseWriter
  calls : List (List Byte)

/-- The method `postImageHandler`; `extract` is the extraction function it calls
(`extractCodeFromImage` in handlers.go, `app.aiService.ExtractCodeFromImage`
in cmd/api/handlers.go). -/
def postImageHandler (extract : List Byte → Except String ExtractedCode)
    (w : http.ResponseWriter) (r : http.Request) : Handled :=
  match r.ParseMultipartForm with
  | .error err => { w := http.Error w err http.StatusBadRequest, calls := [] }
  | .ok form =>
    match http.FormFile form "image" with
    | .error .ErrMissingFile =>
      { w := http.Error w "Request did not contain a file" http.StatusBadRequest, calls := [] }
    | .error (.other err) => { w := http.Error w err http.StatusBadRequest, calls := [] }
    | .ok f =>
      let w1 := match f.readErr with
        | some err => http.Error w err http.StatusBadRequest
        | none => w
      let buf := f.data
      let result := extract buf
      let w2 := match result with
        | .error err => http.Error w1 err http.StatusBadRequest
        | .ok _ => w1
      let code := match result with
        | .error _ => none
        | .ok code => some code
      { w := w2.Write (json.EncodeExtractedCode code), calls := [buf] }

/-! ## Shapes of a decoded content object, used to state the properties -/

def JSON.isStr : JSON → Bool
  | .str _ => true
  | _ => false

def JSON.isNull : JSON → Bool
  | .null => true
  | _ => false

/-- The member name selects the field `f` of `ExtractedCode`. -/
def selects (f : String) (m : List Char × JSON) : Bool :=
  json.findField json.extractedCodeFields m.1 = some f

/-- The text of a string value; `d` for any other value. -/
def JSON.stringOr (d : String) : JSON → String
  | .str s => String.mk s
  | _ => d

/-- The value is the string `s`. -/
def JSON.isString (s : List Char) : JSON → Bool
  | .str t => t = s
  | _ => false

/-- The object has a member named `f` whose value is the string `value`, and
every member whose name selects the field `f` carries that same string. -/
def hasStringField (members : List (List Char × JSON)) (f value : String) : Bool :=
  members.any (fun m => m.1 = f.toList && m.2.isString value.toList)
    && members.all (fun m => !selects f m || m.2.isString value.toList)

/-- No member of the object gives the field `f` a string: the field is
missing, or `null`, or of another type. -/
def lacksStringField (members : List (List Char × JSON)) (f : String) : Bool :=
  members.all (fun m => !selects f m || !m.2.isStr)

/-- Every tag of the catalog, canonical tags and aliases. -/
def catalogTags : List (List Char) :=
  catalogLines.flatMap (fun l =>
    match parseLine l with
    | some e => e.canonicalTag :: e.aliases
    | none => [])

/-- An upstream that answers every request with the given status and body. -/
def respond (status : Nat) (body : String) : Client :=
  fun _ => .ok { StatusCode := status, Body := .ok body }

/-- An upload carrying one file under the form field `image`. -/
def upload (data : List Byte) : http.Request :=
  { ParseMultipartForm := .ok { File := [("image", [{ Open := .ok { data := data } }])] } }

/-- The field of an `ExtractedCode` with the given JSON name. -/
def ExtractedCode.get (v : ExtractedCode) (f : String) : String :=
  if f = "language" then v.Language else if f = "code" then v.Code else v.Tag

/-- The member is stored without a type error: its name selects no field, or
its value is a string or `null`. -/
def storable (m : List Char × JSON) : Bool :=
  (json.findField json.extractedCodeFields m.1).isNone || m.2.isStr || m.2.isNull

/-- A success envelope whose only choice has the given message content. -/
def envelope (content : String) : String :=
  "\x7b\"choices\":[\x7b\"message\":\x7b\"content\":" ++ String.mk (json.appendString content)
    ++ "\x7d\x7d]\x7d"

/-- A 200 answer of the upstream that reports an error: no choices, and an
error object with the given message. -/
def errorEnvelope (message : String) : String :=
  "\x7b\"choices\":[],\"error\":\x7b\"message\":" ++ String.mk (json.appendString message)
    ++ "\x7d\x7d"

/-- An answer that carries a choice and an error object as well. -/
def errorEnvelopeWithChoice (message : String) : String :=
  "\x7b\"choices\":[\x7b\"message\":\x7b\"content\":\"hi\"\x7d\x7d],\"error\":\x7b\"message\":"
    ++ String.mk (json.appendString message) ++ "\x7d\x7d"

/-! ## The scanner on encoded strings, used to state and prove the round trip -/

/-- The scanner after a run of characters. -/
def scan (s : json.Scanner) (cs : List Char) : json.Scanner := cs.foldl json.Scanner.next s

/-- The escaped text of a string, without the quotes. -/
def escapeAll (s : List Char) : List Char := s.foldr (fun c acc => json.escapeChar c ++ acc) []

/-- The character an escape letter stands for. -/
def unescape (e : Char) : Char :=
  if e = 'b' then Char.ofNat 8
  else if e = 'f' then Char.ofNat 12
  else if e = 'n' then '\n'
  else if e = 'r' then '\r'
  else if e = 't' then '\t'
  else e

/-- The three shapes of the escaped form `e` of a character `c`: the character
itself, a two-character escape, or a `\u` escape of its code. -/
def goodEscape (c : Char) (e : List Char) : Bool :=
  match e with
  | [x] => x = c && c ≠ '"' && c ≠ '\\' && 0x20 ≤ c.toNat
  | [b, x] =>
    b = '\\' && (x = 'b' || x = 'f' || x = 'n' || x = 'r' || x = 't' || x = '\\' || x = '/' || x = '"')
      && unescape x = c
  | [b, u, h1, h2, h3, h4] =>
    b = '\\' && u = 'u' && json.isHex h1 && json.isHex h2 && json.isHex h3 && json.isHex h4
      && !json.isSurrogate
          (((json.hexVal h1 * 16 + json.hexVal h2) * 16 + json.hexVal h3) * 16 + json.hexVal h4)
      && Char.ofNat
          (((json.hexVal h1 * 16 + json.hexVal h2) * 16 + json.hexVal h3) * 16 + json.hexVal h4) = c
  | _ => false

/-- The scanner inside a string literal that is the value of the member `key`. -/
def inMember (members : List (List Char × JSON)) (key : List Char) (outer : List json.Frame) :
    json.Scanner :=
  { step := .InString, parseState := .ObjectValue members key :: outer, err := none,
    endTop := false, lit := [], cur := none }

/-- The scanner after the string value `value` of the member `key`. -/
def afterMember (members : List (List Char × JSON)) (key value : List Char)
    (outer : List json.Frame) : json.Scanner :=
  { step := .EndValue, parseState := .ObjectValue members key :: outer, err := none,
    endTop := false, lit := [], cur := some (.str value) }

/-! ## Properties

Auxiliary facts first; the claims follow at the end, in their order. -/

/-- Two strings that start with different characters are different. -/
theorem append_ne_of_head (p x t : String) (h : p.data.head? ≠ t.data.head?)
    (hp : p.data ≠ []) : p ++ x ≠ t := by
  intro heq
  have hd : (p ++ x).data = t.data := congrArg String.data heq
  rw [String.data_append] at hd
  cases hpd : p.data with
  | nil => exact hp hpd
  | cons a as =>
    rw [hpd] at hd h
    rw [← hd] at h
    simp at h

/-- A part of a concatenation occurs in it. -/
theorem infix_append_mid (a b c : String) : b.data <:+: (a ++ b ++ c).data := by
  refine ⟨a.data, c.data, ?_⟩
  simp [String.data_append]


/-! ### Base64 -/

namespace base64

set_option maxRecDepth 100000 in
theorem value_hi6 : ∀ a : Byte, value [a.val / 128 % 2, a.val / 64 % 2, a.val / 32 % 2,
    a.val / 16 % 2, a.val / 8 % 2, a.val / 4 % 2] = a.val / 4 := by decide!

set_option maxRecDepth 100000 in
theorem value_lo2 : ∀ a : Byte, value [a.val / 2 % 2, a.val % 2] = a.val % 4 := by decide!

set_option maxRecDepth 100000 in
theorem value_hi4 : ∀ a : Byte, value [a.val / 128 % 2, a.val / 64 % 2, a.val / 32 % 2,
    a.val / 16 % 2] = a.val / 16 := by decide!

set_option maxRecDepth 100000 in
theorem value_lo4 : ∀ a : Byte, value [a.val / 8 % 2, a.val / 4 % 2, a.val / 2 % 2,
    a.val % 2] = a.val % 16 := by decide!

set_option maxRecDepth 100000 in
theorem value_hi2 : ∀ a : Byte, value [a.val / 128 % 2, a.val / 64 % 2] = a.val / 64 := by decide!

set_option maxRecDepth 100000 in
theorem value_lo6 : ∀ a : Byte, value [a.val / 32 % 2, a.val / 16 % 2, a.val / 8 % 2,
    a.val / 4 % 2, a.val / 2 % 2, a.val % 2] = a.val % 64 := by decide!

theorem value_2_4 (x1 x0 y3 y2 y1 y0 : Nat) :
    value [x1, x0, y3, y2, y1, y0] = value [x1, x0] * 16 + value [y3, y2, y1, y0] := by
  simp only [value, List.foldl_cons, List.foldl_nil]
  omega

theorem value_4_2 (x3 x2 x1 x0 y1 y0 : Nat) :
    value [x3, x2, x1, x0, y1, y0] = value [x3, x2, x1, x0] * 4 + value [y1, y0] := by
  simp only [value, List.foldl_cons, List.foldl_nil]
  omega

theorem groups_24 (x0 x1 x2 x3 x4 x5 x6 x7 y0 y1 y2 y3 y4 y5 y6 y7 z0 z1 z2 z3 z4 z5 z6 z7 : Nat)
    (tail : List Nat) :
    groups (x0 :: x1 :: x2 :: x3 :: x4 :: x5 :: x6 :: x7 :: y0 :: y1 :: y2 :: y3 :: y4 :: y5
      :: y6 :: y7 :: z0 :: z1 :: z2 :: z3 :: z4 :: z5 :: z6 :: z7 :: tail)
    = [x0, x1, x2, x3, x4, x5] :: [x6, x7, y0, y1, y2, y3] :: [y4, y5, y6, y7, z0, z1]
        :: [z2, z3, z4, z5, z6, z7] :: groups tail := by
  rw [groups, groups, groups, groups]

theorem groups_16 (x0 x1 x2 x3 x4 x5 x6 x7 y0 y1 y2 y3 y4 y5 y6 y7 : Nat) :
    groups [x0, x1, x2, x3, x4, x5, x6, x7, y0, y1, y2, y3, y4, y5, y6, y7]
    = [[x0, x1, x2, x3, x4, x5], [x6, x7, y0, y1, y2, y3], [y4, y5, y6, y7, 0, 0]] := by
  rw [groups, groups, groups]
  · rfl
  · intro b0 b1 b2 b3 b4 b5 tail h
    cases h
  · intro h
    cases h

theorem groups_8 (x0 x1 x2 x3 x4 x5 x6 x7 : Nat) :
    groups [x0, x1, x2, x3, x4, x5, x6, x7] = [[x0, x1, x2, x3, x4, x5], [x6, x7, 0, 0, 0, 0]] := by
  rw [groups, groups]
  · rfl
  · intro b0 b1 b2 b3 b4 b5 tail h
    cases h
  · intro h
    cases h

theorem sextets_triple (a b c : Byte) (rest : List Byte) :
    sextets (a :: b :: c :: rest) =
      (a.val * 65536 + b.val * 256 + c.val) / 262144 % 64
        :: (a.val * 65536 + b.val * 256 + c.val) / 4096 % 64
        :: (a.val * 65536 + b.val * 256 + c.val) / 64 % 64
        :: (a.val * 65536 + b.val * 256 + c.val) % 64 :: sextets rest := by
  have ha := a.isLt
  have hb := b.isLt
  have hc := c.isLt
  have h := groups_24 (a.val / 128 % 2) (a.val / 64 % 2) (a.val / 32 % 2) (a.val / 16 % 2)
    (a.val / 8 % 2) (a.val / 4 % 2) (a.val / 2 % 2) (a.val % 2)
    (b.val / 128 % 2) (b.val / 64 % 2) (b.val / 32 % 2) (b.val / 16 % 2)
    (b.val / 8 % 2) (b.val / 4 % 2) (b.val / 2 % 2) (b.val % 2)
    (c.val / 128 % 2) (c.val / 64 % 2) (c.val / 32 % 2) (c.val / 16 % 2)
    (c.val / 8 % 2) (c.val / 4 % 2) (c.val / 2 % 2) (c.val % 2) (rest.flatMap bits)
  have hs : sextets (a :: b :: c :: rest) = (groups ((a :: b :: c :: rest).flatMap bits)).map value :=
    rfl
  rw [hs]
  have hflat : (a :: b :: c :: rest).flatMap bits = _ := rfl
  erw [h]
  simp only [List.map_cons]
  rw [value_hi6, value_2_4, value_lo2, value_hi4, value_4_2, value_lo4, value_hi2, value_lo6]
  have e1 : a.val / 4 = (a.val * 65536 + b.val * 256 + c.val) / 262144 % 64 := by omega
  have e2 : a.val % 4 * 16 + b.val / 16 = (a.val * 65536 + b.val * 256 + c.val) / 4096 % 64 := by
    omega
  have e3 : b.val % 16 * 4 + c.val / 64 = (a.val * 65536 + b.val * 256 + c.val) / 64 % 64 := by
    omega
  have e4 : c.val % 64 = (a.val * 65536 + b.val * 256 + c.val) % 64 := by omega
  rw [e1, e2, e3, e4]
  rfl

theorem sextets_pair (a b : Byte) :
    sextets [a, b] =
      [(a.val * 65536 + b.val * 256) / 262144 % 64, (a.val * 65536 + b.val * 256) / 4096 % 64,
       (a.val * 65536 + b.val * 256) / 64 % 64] := by
  have ha := a.isLt
  have hb := b.isLt
  have h := groups_16 (a.val / 128 % 2) (a.val / 64 % 2) (a.val / 32 % 2) (a.val / 16 % 2)
    (a.val / 8 % 2) (a.val / 4 % 2) (a.val / 2 % 2) (a.val % 2)
    (b.val / 128 % 2) (b.val / 64 % 2) (b.val / 32 % 2) (b.val / 16 % 2)
    (b.val / 8 % 2) (b.val / 4 % 2) (b.val / 2 % 2) (b.val % 2)
  have hs : sextets [a, b] = (groups ([a, b].flatMap bits)).map value := rfl
  rw [hs]
  erw [h]
  simp only [List.map_cons, List.map_nil]
  rw [value_hi6, value_2_4, value_lo2, value_hi4, value_4_2, value_lo4]
  have e1 : a.val / 4 = (a.val * 65536 + b.val * 256) / 262144 % 64 := by omega
  have e2 : a.val % 4 * 16 + b.val / 16 = (a.val * 65536 + b.val * 256) / 4096 % 64 := by omega
  have e3 : b.val % 16 * 4 + value [0, 0] = (a.val * 65536 + b.val * 256) / 64 % 64 := by
    have : value [0, 0] = 0 := rfl
    omega
  rw [e1, e2, e3]

theorem sextets_single (a : Byte) :
    sextets [a] = [a.val * 65536 / 262144 % 64, a.val * 65536 / 4096 % 64] := by
  have ha := a.isLt
  have h := groups_8 (a.val / 128 % 2) (a.val / 64 % 2) (a.val / 32 % 2) (a.val / 16 % 2)
    (a.val / 8 % 2) (a.val / 4 % 2) (a.val / 2 % 2) (a.val % 2)
  have hs : sextets [a] = (groups ([a].flatMap bits)).map value := rfl
  rw [hs]
  erw [h]
  simp only [List.map_cons, List.map_nil]
  rw [value_hi6, value_2_4, value_lo2]
  have e1 : a.val / 4 = a.val * 65536 / 262144 % 64 := by omega
  have e2 : a.val % 4 * 16 + value [0, 0, 0, 0] = a.val * 65536 / 4096 % 64 := by
    have : value [0, 0, 0, 0] = 0 := rfl
    omega
  rw [e1, e2]

theorem encode_mod (v : Nat) : encodeStd.toList.getD (v % 64) (Char.ofNat 65) = encode v := rfl

/-- The method `Encode` writes what RFC 4648 asks for. -/
theorem encodeChars_eq_rfc4648 (src : List Byte) : encodeChars src = rfc4648 src := by
  induction src using encodeChars.induct with
  | case1 a b c rest ih =>
    rw [encodeChars, ih]
    unfold rfc4648
    rw [sextets_triple]
    simp only [List.map_cons, List.length_cons, List.cons_append, encode_mod]
    have hlen : ∀ n : Nat, (4 - (n + 1 + 1 + 1 + 1) % 4) % 4 = (4 - n % 4) % 4 := by
      intro n; omega
    rw [hlen]
  | case2 a b =>
    rw [encodeChars]
    unfold rfc4648
    rw [sextets_pair]
    rfl
  | case3 a =>
    rw [encodeChars]
    unfold rfc4648
    rw [sextets_single]
    rfl
  | case4 => rfl

end base64

/-! ### The catalog -/

theorem withValue_eq (n : Nat) (k : Nat → Bool) : withValue n k = k n := by
  cases n <;> rfl

theorem notIn_spec (v : Nat) (l : List Nat) (h : notIn v l = true) : v ∉ l := by
  induction l with
  | nil => simp
  | cons y ys ih =>
    simp only [notIn, Bool.and_eq_true, Bool.not_eq_true'] at h
    simp only [List.mem_cons, not_or]
    refine ⟨fun hvy => ?_, ih h.2⟩
    have hb : Nat.beq v y = true := by rw [hvy]; exact Nat.beq_refl y
    rw [hb] at h
    exact Bool.noConfusion h.1

theorem distinctFrom_spec (l seen : List Nat) (h : distinctFrom seen l = true) :
    l.Nodup ∧ ∀ x ∈ l, x ∉ seen := by
  induction l generalizing seen with
  | nil => simp
  | cons x xs ih =>
    simp only [distinctFrom, withValue_eq, Bool.and_eq_true] at h
    obtain ⟨hx, hxs⟩ := h
    obtain ⟨hnd, hseen⟩ := ih (x :: seen) hxs
    refine ⟨List.nodup_cons.mpr ⟨fun hmem => ?_, hnd⟩, ?_⟩
    · exact hseen x hmem (List.mem_cons_self x seen)
    · intro y hy
      rcases List.mem_cons.mp hy with rfl | hy
      · exact notIn_spec _ _ hx
      · exact fun hmem => hseen y hy (List.mem_cons_of_mem x hmem)

theorem parseLine_some (l : List Char) (e : TagEntry) (h : parseLine l = some e) :
    e.displayName ≠ [] ∧ isTag e.canonicalTag = true ∧ ∀ a ∈ e.aliases, isTag a = true := by
  unfold parseLine at h
  split at h
  · cases h
  · rename_i name rest _
    split at h
    · cases h
    · rename_i tag aliases _
      split at h
      · rename_i hcond
        cases h
        simp only [Bool.and_eq_true, Bool.not_eq_true', List.all_cons, List.all_eq_true] at hcond
        refine ⟨fun hname => ?_, hcond.2.1, hcond.2.2⟩
        have hn : name = [] := hname
        rw [hn] at hcond
        exact Bool.noConfusion hcond.1
      · cases h

theorem length_filterMap_of_isSome {α β : Type} (f : α → Option β) (l : List α)
    (h : ∀ x ∈ l, (f x).isSome = true) : (l.filterMap f).length = l.length := by
  induction l with
  | nil => rfl
  | cons x xs ih =>
    have hx := h x (List.mem_cons_self x xs)
    obtain ⟨y, hy⟩ := Option.isSome_iff_exists.mp hx
    rw [List.filterMap_cons_some hy]
    simp [ih (fun z hz => h z (List.mem_cons_of_mem x hz))]

set_option maxRecDepth 100000 in
theorem catalogLines_wellFormed : catalogLines.all wellFormedLine = true := by decide!

set_option maxRecDepth 100000 in
theorem canonicalTags_codes_distinct : distinctFrom [] (canonicalTags.map wordCode) = true := by
  decide!


set_option maxRecDepth 100000 in
/-- The word `klingon` is neither a canonical tag nor an alias. -/
theorem klingon_not_in_catalog : "klingon".toList ∉ catalogTags := by decide!

/-! ### Decoding the content object -/

theorem findField_extractedCode (key : List Char) (f : String)
    (h : json.findField json.extractedCodeFields key = some f) :
    f = "language" ∨ f = "code" ∨ f = "tag" := by
  have hmem : f ∈ json.extractedCodeFields := by
    unfold json.findField at h
    split at h
    · rename_i n hn
      cases h
      exact List.mem_of_find?_eq_some hn
    · exact List.mem_of_find?_eq_some h
  simpa [json.extractedCodeFields] using hmem

theorem saveError_isSome (saved : Option json.UnmarshalTypeError) (ctx : json.errorContext)
    (value typ : String) : (json.saveError saved ctx value typ).isSome = true := by
  cases saved <;> rfl

/-- One member changes the field its name selects, and no other. -/
theorem storeExtractedCode_get (ctx : json.errorContext)
    (acc : ExtractedCode × Option json.UnmarshalTypeError) (m : List Char × JSON) (g : String)
    (hg : g = "language" ∨ g = "code" ∨ g = "tag") :
    (json.storeExtractedCode ctx acc m).1.get g =
      if selects g m = true then m.2.stringOr (acc.1.get g) else acc.1.get g := by
  unfold json.storeExtractedCode selects
  cases hf : json.findField json.extractedCodeFields m.1 with
  | none => simp
  | some f =>
    rcases findField_extractedCode _ _ hf with rfl | rfl | rfl <;>
      rcases hg with rfl | rfl | rfl <;>
      cases m.2 <;> simp [json.decodeString, ExtractedCode.get, JSON.stringOr]

/-- The saved error after one member. -/
theorem storeExtractedCode_saved (ctx : json.errorContext)
    (acc : ExtractedCode × Option json.UnmarshalTypeError) (m : List Char × JSON) :
    (storable m = true → (json.storeExtractedCode ctx acc m).2 = acc.2)
    ∧ (storable m = false → (json.storeExtractedCode ctx acc m).2.isSome = true)
    ∧ (acc.2.isSome = true → (json.storeExtractedCode ctx acc m).2.isSome = true) := by
  unfold json.storeExtractedCode storable
  cases hf : json.findField json.extractedCodeFields m.1 with
  | none => simp
  | some f =>
    rcases findField_extractedCode _ _ hf with rfl | rfl | rfl <;>
      cases m.2 <;>
      simp [json.decodeString, JSON.isStr, JSON.isNull, saveError_isSome]

theorem fold_saved_isSome (ctx : json.errorContext) (members : List (List Char × JSON))
    (acc : ExtractedCode × Option json.UnmarshalTypeError) (h : acc.2.isSome = true) :
    (members.foldl (json.storeExtractedCode ctx) acc).2.isSome = true := by
  induction members generalizing acc with
  | nil => exact h
  | cons m ms ih => exact ih _ ((storeExtractedCode_saved ctx acc m).2.2 h)

theorem fold_saved_of_bad (ctx : json.errorContext) (members : List (List Char × JSON))
    (acc : ExtractedCode × Option json.UnmarshalTypeError)
    (h : ∃ m ∈ members, storable m = false) :
    (members.foldl (json.storeExtractedCode ctx) acc).2.isSome = true := by
  induction members generalizing acc with
  | nil => simp at h
  | cons m ms ih =>
    obtain ⟨b, hb, hbad⟩ := h
    rcases List.mem_cons.mp hb with rfl | hb
    · exact fold_saved_isSome ctx ms _ ((storeExtractedCode_saved ctx acc b).2.1 hbad)
    · exact ih _ ⟨b, hb, hbad⟩

theorem fold_saved_none (ctx : json.errorContext) (members : List (List Char × JSON))
    (acc : ExtractedCode × Option json.UnmarshalTypeError)
    (h : ∀ m ∈ members, storable m = true) (hacc : acc.2 = none) :
    (members.foldl (json.storeExtractedCode ctx) acc).2 = none := by
  induction members generalizing acc with
  | nil => exact hacc
  | cons m ms ih =>
    refine ih _ (fun x hx => h x (List.mem_cons_of_mem m hx)) ?_
    rw [(storeExtractedCode_saved ctx acc m).1 (h m (List.mem_cons_self m ms))]
    exact hacc

theorem isString_eq (j : JSON) (s : List Char) (h : j.isString s = true) : j = JSON.str s := by
  cases j <;> simp_all [JSON.isString]

theorem fold_get_unchanged (ctx : json.errorContext) (members : List (List Char × JSON))
    (acc : ExtractedCode × Option json.UnmarshalTypeError) (g : String)
    (hg : g = "language" ∨ g = "code" ∨ g = "tag")
    (h : lacksStringField members g = true) :
    (members.foldl (json.storeExtractedCode ctx) acc).1.get g = acc.1.get g := by
  induction members generalizing acc with
  | nil => rfl
  | cons m ms ih =>
    have h : (selects g m = false ∨ m.2.isStr = false) ∧ lacksStringField ms g = true := by
      simpa [lacksStringField] using h
    rw [List.foldl_cons, ih _ h.2, storeExtractedCode_get ctx acc m g hg]
    rcases h.1 with hsel | hstr
    · simp [hsel]
    · have hd : m.2.stringOr (acc.1.get g) = acc.1.get g := by
        cases hm : m.2 <;> simp_all [JSON.isStr, JSON.stringOr]
      simp [hd]

theorem fold_get_set (ctx : json.errorContext) (members : List (List Char × JSON))
    (acc : ExtractedCode × Option json.UnmarshalTypeError) (g : String) (s : List Char)
    (hg : g = "language" ∨ g = "code" ∨ g = "tag")
    (hall : ∀ m ∈ members, selects g m = true → m.2 = JSON.str s)
    (h : acc.1.get g = String.mk s ∨ ∃ m ∈ members, selects g m = true) :
    (members.foldl (json.storeExtractedCode ctx) acc).1.get g = String.mk s := by
  induction members generalizing acc with
  | nil => simpa using h
  | cons m ms ih =>
    rw [List.foldl_cons]
    apply ih _ (fun x hx => hall x (List.mem_cons_of_mem m hx))
    rw [storeExtractedCode_get ctx acc m g hg]
    by_cases hsel : selects g m = true
    · left
      simp [hsel, hall m (List.mem_cons_self m ms) hsel, JSON.stringOr]
    · simp only [hsel, Bool.false_eq_true, ↓reduceIte]
      rcases h with h | ⟨x, hx, hxs⟩
      · exact Or.inl h
      · rcases List.mem_cons.mp hx with rfl | hx
        · exact absurd hxs hsel
        · exact Or.inr ⟨x, hx, hxs⟩

theorem selects_self (f : String) (v : JSON) (hg : f = "language" ∨ f = "code" ∨ f = "tag") :
    selects f (f.toList, v) = true := by
  have h : ∀ g : String, g ∈ json.extractedCodeFields →
      json.findField json.extractedCodeFields g.toList = some g := by decide
  unfold selects
  rcases hg with rfl | rfl | rfl <;> exact decide_eq_true (h _ (by decide))

/-- A field the object has as a string is decoded to that string. -/
theorem fold_get_of_hasStringField (ctx : json.errorContext)
    (members : List (List Char × JSON)) (acc : ExtractedCode × Option json.UnmarshalTypeError)
    (g value : String) (hg : g = "language" ∨ g = "code" ∨ g = "tag")
    (h : hasStringField members g value = true) :
    (members.foldl (json.storeExtractedCode ctx) acc).1.get g = value := by
  simp only [hasStringField, Bool.and_eq_true, List.any_eq_true, List.all_eq_true,
    Bool.or_eq_true, Bool.not_eq_true', decide_eq_true_eq] at h
  obtain ⟨⟨m, hm, hname, hval⟩, hall⟩ := h
  have hsel : selects g m = true := by
    have := selects_self g m.2 hg
    rwa [← hname] at this
  have hres := fold_get_set ctx members acc g value.toList hg
    (fun x hx hxs => by
      rcases hall x hx with hno | hyes
      · rw [hno] at hxs; cases hxs
      · exact isString_eq _ _ hyes)
    (Or.inr ⟨m, hm, hsel⟩)
  simpa using hres

theorem storable_of_hasStringFields (members : List (List Char × JSON))
    (language code tag : String)
    (hl : hasStringField members "language" language = true)
    (hc : hasStringField members "code" code = true)
    (ht : hasStringField members "tag" tag = true) :
    ∀ m ∈ members, storable m = true := by
  intro m hm
  simp only [hasStringField, Bool.and_eq_true, List.all_eq_true, Bool.or_eq_true,
    Bool.not_eq_true'] at hl hc ht
  unfold storable
  cases hf : json.findField json.extractedCodeFields m.1 with
  | none => rfl
  | some f =>
    have key : ∀ (g v : String), g = f → (selects g m = false ∨ m.2.isString v.toList = true) →
        m.2.isStr = true := by
      intro g v hgf hor
      rcases hor with hno | hyes
      · simp [selects, hf, hgf] at hno
      · rw [isString_eq _ _ hyes]; rfl
    rcases findField_extractedCode _ _ hf with rfl | rfl | rfl
    · simp [key "language" language rfl (hl.2 m hm)]
    · simp [key "code" code rfl (hc.2 m hm)]
    · simp [key "tag" tag rfl (ht.2 m hm)]

theorem ExtractedCode.ext_get (r : ExtractedCode) (language code tag : String)
    (hl : r.get "language" = language) (hc : r.get "code" = code) (ht : r.get "tag" = tag) :
    r = { Language := language, Code := code, Tag := tag } := by
  cases r
  simp [ExtractedCode.get] at hl hc ht
  simp [hl, hc, ht]

/-! ### The content of the first choice -/

/-- With status 200, an envelope that decodes, no error object and a first
choice, the outcome is that of decoding the content of the first choice. -/
theorem extract_of_first_choice (getenv : String → String) (client : Client)
    (imageData : List Byte) (resp : HTTPResponse) (body : String)
    (apiResponse : OpenAIResponse) (choice : Choice) (rest : List Choice)
    (hdo : client (extractCodeFromImage.req getenv imageData) = .ok resp)
    (hbody : resp.Body = .ok body)
    (hstatus : resp.StatusCode = 200)
    (hparse : json.Unmarshal json.decodeOpenAIResponse body {} = (apiResponse, none))
    (hnoerr : apiResponse.Error = none)
    (hchoice : apiResponse.Choices = choice :: rest) :
    extractCodeFromImage getenv client imageData =
      match json.Unmarshal json.decodeExtractedCode choice.Message.Content {} with
      | (_, some err) => .error ("error parsing structured response: " ++ err)
      | (extractedCode, none) => .ok extractedCode := by
  unfold extractCodeFromImage
  simp only [hdo, hbody, hstatus, hparse, hnoerr, hchoice]
  simp

theorem unmarshal_of_syntax_error (content : String) (e : List Char)
    (h : json.checkValid content.toList = .error e) :
    json.Unmarshal json.decodeExtractedCode content {} = ({}, some (String.mk e)) := by
  unfold json.Unmarshal
  rw [h]

theorem unmarshal_of_object (content : String) (members : List (List Char × JSON))
    (h : json.checkValid content.toList = .ok (.obj members)) :
    json.Unmarshal json.decodeExtractedCode content {} =
      ((members.foldl (json.storeExtractedCode {}) ({}, none)).1,
       (members.foldl (json.storeExtractedCode {}) ({}, none)).2.map
         json.UnmarshalTypeError.Error) := by
  unfold json.Unmarshal
  rw [h]
  rfl

/-- For a well-formed content object the result is exactly its three strings. -/
theorem extract_of_string_fields (getenv : String → String) (client : Client)
    (imageData : List Byte) (resp : HTTPResponse) (body : String)
    (apiResponse : OpenAIResponse) (choice : Choice) (rest : List Choice)
    (members : List (List Char × JSON)) (language code tag : String)
    (hdo : client (extractCodeFromImage.req getenv imageData) = .ok resp)
    (hbody : resp.Body = .ok body)
    (hstatus : resp.StatusCode = 200)
    (hparse : json.Unmarshal json.decodeOpenAIResponse body {} = (apiResponse, none))
    (hnoerr : apiResponse.Error = none)
    (hchoice : apiResponse.Choices = choice :: rest)
    (hcontent : json.checkValid choice.Message.Content.toList = .ok (.obj members))
    (hl : hasStringField members "language" language = true)
    (hc : hasStringField members "code" code = true)
    (ht : hasStringField members "tag" tag = true) :
    extractCodeFromImage getenv client imageData
      = .ok { Language := language, Code := code, Tag := tag } := by
  rw [extract_of_first_choice getenv client imageData resp body apiResponse choice rest
    hdo hbody hstatus hparse hnoerr hchoice, unmarshal_of_object _ members hcontent]
  have hsaved := fold_saved_none {} members ({}, none)
    (storable_of_hasStringFields members language code tag hl hc ht) rfl
  rw [hsaved]
  simp only [Option.map_none']
  congr 1
  exact ExtractedCode.ext_get _ language code tag
    (fold_get_of_hasStringField {} members _ "language" language (Or.inl rfl) hl)
    (fold_get_of_hasStringField {} members _ "code" code (Or.inr (Or.inl rfl)) hc)
    (fold_get_of_hasStringField {} members _ "tag" tag (Or.inr (Or.inr rfl)) ht)



/-- An error object in the decoded envelope is reported with its message. -/
theorem extract_of_error_object (getenv : String → String) (client : Client)
    (imageData : List Byte) (resp : HTTPResponse) (body : String)
    (apiResponse : OpenAIResponse) (e : APIError)
    (hdo : client (extractCodeFromImage.req getenv imageData) = .ok resp)
    (hbody : resp.Body = .ok body)
    (hstatus : resp.StatusCode = 200)
    (hparse : json.Unmarshal json.decodeOpenAIResponse body {} = (apiResponse, none))
    (herr : apiResponse.Error = some e) :
    extractCodeFromImage getenv client imageData = .error ("API error: " ++ e.Message) := by
  unfold extractCodeFromImage
  simp only [hdo, hbody, hstatus, hparse, herr]
  simp

/-- A content that is not valid JSON is reported with the syntax error. -/
theorem extract_of_syntax_error (getenv : String → String) (client : Client)
    (imageData : List Byte) (resp : HTTPResponse) (body : String)
    (apiResponse : OpenAIResponse) (choice : Choice) (rest : List Choice) (e : List Char)
    (hdo : client (extractCodeFromImage.req getenv imageData) = .ok resp)
    (hbody : resp.Body = .ok body)
    (hstatus : resp.StatusCode = 200)
    (hparse : json.Unmarshal json.decodeOpenAIResponse body {} = (apiResponse, none))
    (hnoerr : apiResponse.Error = none)
    (hchoice : apiResponse.Choices = choice :: rest)
    (hcontent : json.checkValid choice.Message.Content.toList = .error e) :
    extractCodeFromImage getenv client imageData
      = .error ("error parsing structured response: " ++ String.mk e) := by
  rw [extract_of_first_choice getenv client imageData resp body apiResponse choice rest
    hdo hbody hstatus hparse hnoerr hchoice, unmarshal_of_syntax_error _ e hcontent]

/-- An object as content: a type error if a member cannot be stored, else a
result in which a field no member sets to a string is empty. -/
theorem extract_of_content_object (getenv : String → String) (client : Client)
    (imageData : List Byte) (resp : HTTPResponse) (body : String)
    (apiResponse : OpenAIResponse) (choice : Choice) (rest : List Choice)
    (members : List (List Char × JSON))
    (hdo : client (extractCodeFromImage.req getenv imageData) = .ok resp)
    (hbody : resp.Body = .ok body)
    (hstatus : resp.StatusCode = 200)
    (hparse : json.Unmarshal json.decodeOpenAIResponse body {} = (apiResponse, none))
    (hnoerr : apiResponse.Error = none)
    (hchoice : apiResponse.Choices = choice :: rest)
    (hcontent : json.checkValid choice.Message.Content.toList = .ok (.obj members)) :
    ((∃ m ∈ members, storable m = false) →
      ∃ e : json.UnmarshalTypeError, extractCodeFromImage getenv client imageData
        = .error ("error parsing structured response: " ++ e.Error))
    ∧ ((∀ m ∈ members, storable m = true) →
      ∃ r : ExtractedCode, extractCodeFromImage getenv client imageData = .ok r
        ∧ ∀ f ∈ json.extractedCodeFields, lacksStringField members f = true → r.get f = "") := by
  rw [extract_of_first_choice getenv client imageData resp body apiResponse choice rest
    hdo hbody hstatus hparse hnoerr hchoice, unmarshal_of_object _ members hcontent]
  constructor
  · intro hbad
    have hsome := fold_saved_of_bad {} members ({}, none) hbad
    obtain ⟨e, he⟩ := Option.isSome_iff_exists.mp hsome
    exact ⟨e, by rw [he]; rfl⟩
  · intro hfine
    have hnone := fold_saved_none {} members ({}, none) hfine rfl
    refine ⟨(members.foldl (json.storeExtractedCode {}) ({}, none)).1, by rw [hnone]; rfl, ?_⟩
    intro f hf hlack
    have hg : f = "language" ∨ f = "code" ∨ f = "tag" := by
      simpa [json.extractedCodeFields] using hf
    rw [fold_get_unchanged {} members ({}, none) f hg hlack]
    rcases hg with rfl | rfl | rfl <;> rfl


/-! ### Encoded strings are read back -/

section ReadBack

open json

theorem appendString_eq (s : String) : appendString s = '"' :: escapeAll s.toList ++ ['"'] := by
  unfold appendString escapeAll
  congr 1
  induction s.toList with
  | nil => rfl
  | cons c cs ih => simp [List.foldr_cons, ih]

set_option maxRecDepth 100000 in
theorem goodEscape_ascii :
    ∀ n : Fin 128, goodEscape (Char.ofNat n.val) (escapeChar (Char.ofNat n.val)) = true := by
  decide!

theorem goodEscape_escapeChar (c : Char) : goodEscape c (escapeChar c) = true := by
  by_cases h : c.toNat < 0x80
  · have := goodEscape_ascii ⟨c.toNat, h⟩
    simpa [Char.ofNat_toNat] using this
  · unfold escapeChar
    simp only [h, ↓reduceIte]
    by_cases h2 : c.toNat = 0x2028
    · have hc : c = Char.ofNat 0x2028 := by rw [← h2, Char.ofNat_toNat]
      subst hc
      decide
    · by_cases h3 : c.toNat = 0x2029
      · have hc : c = Char.ofNat 0x2029 := by rw [← h3, Char.ofNat_toNat]
        subst hc
        decide
      · simp only [h2, h3, decide_False, Bool.or_self, Bool.false_eq_true, ↓reduceIte]
        simp only [goodEscape, decide_True, Bool.true_and, Bool.and_eq_true, decide_eq_true_eq]
        refine ⟨⟨?_, ?_⟩, by omega⟩
        · rintro rfl; exact h (by decide)
        · rintro rfl; exact h (by decide)

theorem scan_append (s : Scanner) (a b : List Char) : scan s (a ++ b) = scan (scan s a) b := by
  unfold scan
  rw [List.foldl_append]

theorem scan_cons (s : Scanner) (c : Char) (cs : List Char) : scan s (c :: cs) = scan (s.next c) cs :=
  rfl

theorem scan_escape (s : Scanner) (c : Char) (e : List Char) (h : goodEscape c e = true)
    (hs : s.step = .InString) : scan s e = { s with lit := s.lit ++ e } := by
  obtain ⟨step, ps, err, endTop, lit, cur⟩ := s
  simp only at hs
  subst hs
  unfold goodEscape at h
  split at h
  · rename_i x
    simp only [Bool.and_eq_true, decide_eq_true_eq, ne_eq, decide_not, Bool.not_eq_true',
      decide_eq_false_iff_not] at h
    obtain ⟨⟨⟨rfl, h1⟩, h2⟩, h3⟩ := h
    have h3' : ¬ x.toNat < 0x20 := by omega
    simp [scan, Scanner.next, stateInString, h1, h2, h3']
  · rename_i b x
    simp only [Bool.and_eq_true, decide_eq_true_eq, Bool.or_eq_true] at h
    obtain ⟨⟨rfl, hx⟩, _⟩ := h
    have hx' : (x = 'b' || x = 'f' || x = 'n' || x = 'r' || x = 't' || x = '\\' || x = '/'
        || x = '"') = true := by simpa using hx
    simp [scan, Scanner.next, stateInString, stateInStringEsc, hx']
  · rename_i b u h1 h2 h3 h4
    simp only [Bool.and_eq_true, decide_eq_true_eq] at h
    obtain ⟨⟨⟨⟨⟨⟨⟨rfl, rfl⟩, i1⟩, i2⟩, i3⟩, i4⟩, _⟩, _⟩ := h
    simp [scan, Scanner.next, stateInString, stateInStringEsc, stateInStringEscUn, i1, i2, i3, i4]
  · cases h

theorem unquote_escape (c : Char) (e tail : List Char) (h : goodEscape c e = true) :
    unquote 0 (e ++ tail) = c :: unquote 0 tail := by
  unfold goodEscape at h
  split at h
  · rename_i x
    simp only [Bool.and_eq_true, decide_eq_true_eq, ne_eq, decide_not, Bool.not_eq_true',
      decide_eq_false_iff_not] at h
    obtain ⟨⟨⟨rfl, h1⟩, h2⟩, h3⟩ := h
    simp only [List.cons_append, List.nil_append]
    rw [unquote]
    · intro a b c d t hh
      exact absurd hh h2
    · intro e t hh
      exact absurd hh h2
  · rename_i b x
    simp only [Bool.and_eq_true, decide_eq_true_eq, Bool.or_eq_true] at h
    obtain ⟨⟨rfl, hx⟩, hu⟩ := h
    simp only [List.cons_append, List.nil_append]
    rw [unquote]
    · rw [← hu]; rfl
    · intro a b c d t hh
      subst hh
      exact absurd hx (by decide)
  · rename_i b u h1 h2 h3 h4
    simp only [Bool.and_eq_true, decide_eq_true_eq, Bool.not_eq_true'] at h
    obtain ⟨⟨⟨⟨⟨⟨⟨rfl, rfl⟩, i1⟩, i2⟩, i3⟩, i4⟩, hsur⟩, hc⟩ := h
    simp only [List.cons_append, List.nil_append]
    rw [unquote]
    simp [hsur, hc]
  · cases h

theorem scan_string (str : List Char) (s : Scanner) (rest : List Char)
    (hs : s.step = .InString) :
    scan s (escapeAll str ++ '"' :: rest)
      = scan { s with step := .EndValue, cur := some (.str (unquote 0 (s.lit ++ escapeAll str))),
                      lit := [] } rest := by
  induction str generalizing s with
  | nil =>
    obtain ⟨step, ps, err, endTop, lit, cur⟩ := s
    simp only at hs
    subst hs
    simp [escapeAll, scan_cons, Scanner.next, stateInString]
  | cons c cs ih =>
    have he : escapeAll (c :: cs) = escapeChar c ++ escapeAll cs := rfl
    rw [he, List.append_assoc, scan_append, scan_escape s c _ (goodEscape_escapeChar c) hs]
    rw [ih { s with lit := s.lit ++ escapeChar c } hs]
    simp [List.append_assoc]

theorem unquote_escapeAll (str : List Char) : unquote 0 (escapeAll str) = str := by
  induction str with
  | nil => rfl
  | cons c cs ih =>
    have he : escapeAll (c :: cs) = escapeChar c ++ escapeAll cs := rfl
    rw [he, unquote_escape c _ _ (goodEscape_escapeChar c), ih]


theorem escapeAll_language : escapeAll "language".toList = "language".toList := by rfl

theorem escapeAll_code : escapeAll "code".toList = "code".toList := by rfl

theorem escapeAll_tag : escapeAll "tag".toList = "tag".toList := by rfl

theorem marshalExtractedCode_chars (v : ExtractedCode) :
    (json.MarshalExtractedCode v).toList =
      "\x7b\"language\":\"".toList ++ (escapeAll v.Language.toList ++ '"' ::
        (",\"code\":\"".toList ++ (escapeAll v.Code.toList ++ '"' ::
          (",\"tag\":\"".toList ++ (escapeAll v.Tag.toList ++ '"' :: "\x7d".toList))))) := by
  have e1 := escapeAll_language
  have e2 := escapeAll_code
  have e3 := escapeAll_tag
  simp only [String.toList] at e1 e2 e3
  simp [json.MarshalExtractedCode, object, member, appendString_eq, List.intercalate, List.intersperse,
    List.flatten, e1, e2, e3]

theorem scan_member_value (members : List (List Char × JSON)) (key value rest : List Char)
    (outer : List Frame) :
    scan (inMember members key outer) (escapeAll value ++ '"' :: rest)
      = scan (afterMember members key value outer) rest := by
  rw [scan_string value (inMember members key outer) rest rfl]
  simp only [inMember, afterMember, List.nil_append, unquote_escapeAll]

theorem checkValid_marshalExtractedCode (v : ExtractedCode) :
    checkValid (json.MarshalExtractedCode v).toList =
      .ok (.obj [("language".toList, .str v.Language.toList), ("code".toList, .str v.Code.toList),
        ("tag".toList, .str v.Tag.toList)]) := by
  unfold checkValid
  rw [marshalExtractedCode_chars]
  have hfold : ∀ (s : Scanner) (cs : List Char), List.foldl Scanner.next s cs = scan s cs :=
    fun _ _ => rfl
  rw [hfold, scan_append]
  have h1 : scan Scanner.reset "\x7b\"language\":\"".toList
      = inMember [] "language".toList [] := by rfl
  rw [h1, scan_member_value, scan_append]
  have h2 : scan (afterMember [] "language".toList v.Language.toList []) ",\"code\":\"".toList
      = inMember [("language".toList, .str v.Language.toList)] "code".toList [] := by rfl
  rw [h2, scan_member_value, scan_append]
  have h3 : scan (afterMember [("language".toList, .str v.Language.toList)] "code".toList
        v.Code.toList []) ",\"tag\":\"".toList
      = inMember [("language".toList, .str v.Language.toList),
          ("code".toList, .str v.Code.toList)] "tag".toList [] := by rfl
  rw [h3, scan_member_value]
  rfl


theorem envelope_chars (content : String) :
    (envelope content).toList =
      "\x7b\"choices\":[\x7b\"message\":\x7b\"content\":\"".toList
        ++ (escapeAll content.toList ++ '"' :: "\x7d\x7d]\x7d".toList) := by
  simp [envelope, appendString_eq]

theorem checkValid_envelope (content : String) :
    checkValid (envelope content).toList =
      .ok (.obj [("choices".toList,
        .arr [.obj [("message".toList, .obj [("content".toList, .str content.toList)])]])]) := by
  unfold checkValid
  rw [envelope_chars]
  have hfold : ∀ (s : Scanner) (cs : List Char), List.foldl Scanner.next s cs = scan s cs :=
    fun _ _ => rfl
  rw [hfold, scan_append]
  have h1 : scan Scanner.reset "\x7b\"choices\":[\x7b\"message\":\x7b\"content\":\"".toList
      = inMember [] "content".toList
          [.ObjectValue [] "message".toList, .ArrayValue [], .ObjectValue [] "choices".toList] := by
    rfl
  rw [h1, scan_member_value]
  rfl

/-- The envelope decodes to one choice with the given content and no error object. -/
theorem unmarshal_envelope (content : String) :
    json.Unmarshal json.decodeOpenAIResponse (envelope content) {}
      = ({ Choices := [{ Message := { Content := content } }], Error := none }, none) := by
  unfold json.Unmarshal
  rw [checkValid_envelope]
  rfl

theorem selects_key (f : String) (key : List Char) (x : JSON) :
    selects f (key, x) = decide (findField extractedCodeFields key = some f) := rfl

theorem hasStringField_marshalExtractedCode (v : ExtractedCode) :
    hasStringField [("language".toList, .str v.Language.toList),
        ("code".toList, .str v.Code.toList), ("tag".toList, .str v.Tag.toList)]
        "language" v.Language = true
    ∧ hasStringField [("language".toList, .str v.Language.toList),
        ("code".toList, .str v.Code.toList), ("tag".toList, .str v.Tag.toList)]
        "code" v.Code = true
    ∧ hasStringField [("language".toList, .str v.Language.toList),
        ("code".toList, .str v.Code.toList), ("tag".toList, .str v.Tag.toList)]
        "tag" v.Tag = true := by
  have n1 : ¬ findField extractedCodeFields ['c', 'o', 'd', 'e'] = some "language" := by decide
  have n2 : ¬ findField extractedCodeFields ['t', 'a', 'g'] = some "language" := by decide
  have n3 : ¬ findField extractedCodeFields ['l', 'a', 'n', 'g', 'u', 'a', 'g', 'e'] = some "code" := by
    decide
  have n4 : ¬ findField extractedCodeFields ['t', 'a', 'g'] = some "code" := by decide
  have n5 : ¬ findField extractedCodeFields ['l', 'a', 'n', 'g', 'u', 'a', 'g', 'e'] = some "tag" := by
    decide
  have n6 : ¬ findField extractedCodeFields ['c', 'o', 'd', 'e'] = some "tag" := by decide
  refine ⟨?_, ?_, ?_⟩ <;>
    simp [hasStringField, selects_key, JSON.isString, n1, n2, n3, n4, n5, n6]

/-- An upstream that answers 200 with the JSON encoding of a result as the
content of its only choice gets that result back. -/
theorem extract_marshalExtractedCode (getenv : String → String) (imageData : List Byte)
    (v : ExtractedCode) :
    extractCodeFromImage getenv (respond 200 (envelope (json.MarshalExtractedCode v))) imageData = .ok v := by
  obtain ⟨hl, hc, ht⟩ := hasStringField_marshalExtractedCode v
  exact extract_of_string_fields getenv (respond 200 (envelope (json.MarshalExtractedCode v))) imageData
    _ _ _ { Message := { Content := json.MarshalExtractedCode v } } [] _ v.Language v.Code v.Tag
    rfl rfl rfl (unmarshal_envelope (json.MarshalExtractedCode v)) rfl rfl
    (checkValid_marshalExtractedCode v) hl hc ht

theorem unmarshal_errorEnvelope (message : String) :
    json.Unmarshal json.decodeOpenAIResponse (errorEnvelope message) {}
      = ({ Choices := [], Error := some { Message := message } }, none) := by
  have hchars : (errorEnvelope message).toList =
      "\x7b\"choices\":[],\"error\":\x7b\"message\":\"".toList
        ++ (escapeAll message.toList ++ '"' :: "\x7d\x7d".toList) := by
    simp [errorEnvelope, appendString_eq]
  have hfold : ∀ (s : Scanner) (cs : List Char), List.foldl Scanner.next s cs = scan s cs :=
    fun _ _ => rfl
  have h1 : scan Scanner.reset "\x7b\"choices\":[],\"error\":\x7b\"message\":\"".toList
      = inMember [] "message".toList [.ObjectValue [("choices".toList, .arr [])] "error".toList] := by
    rfl
  unfold json.Unmarshal checkValid
  rw [hchars, hfold, scan_append, h1, scan_member_value]
  rfl

theorem unmarshal_errorEnvelopeWithChoice (message : String) :
    json.Unmarshal json.decodeOpenAIResponse (errorEnvelopeWithChoice message) {}
      = ({ Choices := [{ Message := { Content := "hi" } }], Error := some { Message := message } },
         none) := by
  have hchars : (errorEnvelopeWithChoice message).toList =
      "\x7b\"choices\":[\x7b\"message\":\x7b\"content\":\"hi\"\x7d\x7d],\"error\":\x7b\"message\":\"".toList
        ++ (escapeAll message.toList ++ '"' :: "\x7d\x7d".toList) := by
    simp [errorEnvelopeWithChoice, appendString_eq]
  have hfold : ∀ (s : Scanner) (cs : List Char), List.foldl Scanner.next s cs = scan s cs :=
    fun _ _ => rfl
  have h1 : scan Scanner.reset
      "\x7b\"choices\":[\x7b\"message\":\x7b\"content\":\"hi\"\x7d\x7d],\"error\":\x7b\"message\":\"".toList
      = inMember [] "message".toList
          [.ObjectValue [("choices".toList,
            .arr [.obj [("message".toList, .obj [("content".toList, .str "hi".toList)])]])]
            "error".toList] := by
    rfl
  unfold json.Unmarshal checkValid
  rw [hchars, hfold, scan_append, h1, scan_member_value]
  rfl

end ReadBack

/-! ## The claims -/

/-- Claim C1, as the code has it: when the upstream answers 200 with an envelope that
decodes, has no error object and has a first choice whose content is a JSON
object with the string fields `language`, `code` and `tag`, and in which every
member whose name selects one of these fields (the decoder matches names
without regard to case, and takes repeated members in turn) carries that same
string, `extractCodeFromImage` returns no error but a result with exactly
those three strings, whatever the tag is. In particular, for every image
buffer and every three strings, an upstream that answers with the JSON
encoding of these strings as content gets them back. -/
theorem well_formed_content_extracted :
    (∀ (getenv : String → String) (client : Client) (imageData : List Byte)
        (resp : HTTPResponse) (body : String) (apiResponse : OpenAIResponse)
        (choice : Choice) (rest : List Choice) (members : List (List Char × JSON))
        (language code tag : String),
        client (extractCodeFromImage.req getenv imageData) = .ok resp →
        resp.Body = .ok body →
        resp.StatusCode = 200 →
        json.Unmarshal json.decodeOpenAIResponse body {} = (apiResponse, none) →
        apiResponse.Error = none →
        apiResponse.Choices = choice :: rest →
        json.checkValid choice.Message.Content.toList = .ok (.obj members) →
        hasStringField members "language" language = true →
        hasStringField members "code" code = true →
        hasStringField members "tag" tag = true →
        extractCodeFromImage getenv client imageData
          = .ok { Language := language, Code := code, Tag := tag })
    ∧ (∀ (getenv : String → String) (imageData : List Byte) (language code tag : String),
        extractCodeFromImage getenv
            (respond 200 (envelope (json.MarshalExtractedCode
              { Language := language, Code := code, Tag := tag }))) imageData
          = .ok { Language := language, Code := code, Tag := tag }) :=
  ⟨fun getenv client imageData resp body apiResponse choice rest members language code tag
      hdo hbody hstatus hparse hnoerr hchoice hcontent hl hc ht =>
      extract_of_string_fields getenv client imageData resp body apiResponse choice rest members
        language code tag hdo hbody hstatus hparse hnoerr hchoice hcontent hl hc ht,
   fun getenv imageData language code tag =>
      extract_marshalExtractedCode getenv imageData
        { Language := language, Code := code, Tag := tag }⟩

set_option maxRecDepth 100000 in
/-- Claim C1 at work: a tag that is no tag of the catalog passes through. -/
theorem well_formed_content_extracted_witness :
    "klingon".toList ∉ catalogTags
    ∧ extractCodeFromImage (fun _ => "sk-test")
        (respond 200 "\x7b\"id\":\"c1\",\"choices\":[\x7b\"index\":0,\"message\":\x7b\"role\":\"assistant\",\"content\":\"\x7b\\n  \\\"language\\\": \\\"Go\\\",\\n  \\\"code\\\": \\\"x := \\\\\\\"a\\\\\\\"\\\\n\\\",\\n  \\\"tag\\\": \\\"klingon\\\"\\n\x7d\"\x7d\x7d]\x7d")
        [255, 216, 255]
      = .ok { Language := "Go", Code := "x := \"a\"\n", Tag := "klingon" } :=
  ⟨klingon_not_in_catalog,
   well_formed_content_extracted.1 (fun _ => "sk-test")
    (respond 200 "\x7b\"id\":\"c1\",\"choices\":[\x7b\"index\":0,\"message\":\x7b\"role\":\"assistant\",\"content\":\"\x7b\\n  \\\"language\\\": \\\"Go\\\",\\n  \\\"code\\\": \\\"x := \\\\\\\"a\\\\\\\"\\\\n\\\",\\n  \\\"tag\\\": \\\"klingon\\\"\\n\x7d\"\x7d\x7d]\x7d")
    [255, 216, 255] _ _
    { Choices := [{ Message := { Content := "\x7b\n  \"language\": \"Go\",\n  \"code\": \"x := \\\"a\\\"\\n\",\n  \"tag\": \"klingon\"\n\x7d" } }] }
    _ []
    [("language".toList, .str "Go".toList), ("code".toList, .str "x := \"a\"\n".toList),
     ("tag".toList, .str "klingon".toList)]
    "Go" "x := \"a\"\n" "klingon"
    rfl rfl rfl (by decide) rfl rfl rfl (by decide) (by decide) (by decide)⟩

set_option maxRecDepth 100000 in
/-- Claim C1 as stated fails: a content object with the string fields `language`, `code`
and `tag` may hold a further member whose name differs from `tag` in case
only. The decoder stores it in the same field: a later `TAG` replaces the tag
in the result, and a `Tag` that is a number makes the call fail. -/
theorem case_variant_member_overrides_field :
    json.checkValid
        "\x7b\"language\":\"Go\",\"code\":\"x\",\"tag\":\"go\",\"TAG\":\"rust\"\x7d".toList
      = .ok (.obj [("language".toList, .str "Go".toList), ("code".toList, .str "x".toList),
          ("tag".toList, .str "go".toList), ("TAG".toList, .str "rust".toList)])
    ∧ extractCodeFromImage (fun _ => "")
        (respond 200 (envelope
          "\x7b\"language\":\"Go\",\"code\":\"x\",\"tag\":\"go\",\"TAG\":\"rust\"\x7d")) []
      = .ok { Language := "Go", Code := "x", Tag := "rust" }
    ∧ extractCodeFromImage (fun _ => "")
        (respond 200 (envelope
          "\x7b\"language\":\"Go\",\"code\":\"x\",\"tag\":\"go\",\"TAG\":\"rust\"\x7d")) []
      ≠ .ok { Language := "Go", Code := "x", Tag := "go" }
    ∧ json.checkValid
        "\x7b\"language\":\"Go\",\"code\":\"x\",\"tag\":\"go\",\"Tag\":7\x7d".toList
      = .ok (.obj [("language".toList, .str "Go".toList), ("code".toList, .str "x".toList),
          ("tag".toList, .str "go".toList), ("Tag".toList, .number "7".toList)])
    ∧ (extractCodeFromImage (fun _ => "")
        (respond 200 (envelope
          "\x7b\"language\":\"Go\",\"code\":\"x\",\"tag\":\"go\",\"Tag\":7\x7d")) []).toOption
      = none :=
  ⟨by rfl, by decide!, by decide!, by rfl, by decide!⟩

/-- Claim C2: when the upstream answers with a status outside 200..299, whatever the
body, `extractCodeFromImage` returns no result but the error
`API request failed with status <code>: <body>`, which contains the decimal
status code and the literal body. -/
theorem upstream_status_failure (getenv : String → String) (client : Client)
    (imageData : List Byte) (resp : HTTPResponse) (body : String)
    (hdo : client (extractCodeFromImage.req getenv imageData) = .ok resp)
    (hbody : resp.Body = .ok body)
    (hstatus : ¬ (200 ≤ resp.StatusCode ∧ resp.StatusCode < 300)) :
    extractCodeFromImage getenv client imageData
        = .error ("API request failed with status " ++ Nat.repr resp.StatusCode ++ ": " ++ body)
      ∧ (Nat.repr resp.StatusCode).data <:+:
          ("API request failed with status " ++ Nat.repr resp.StatusCode ++ ": " ++ body).data
      ∧ body.data <:+:
          ("API request failed with status " ++ Nat.repr resp.StatusCode ++ ": " ++ body).data := by
  have hne : resp.StatusCode ≠ 200 := by omega
  refine ⟨?_, ?_, ?_⟩
  · unfold extractCodeFromImage
    simp only [hdo, hbody]
    simp [hne]
  · have h := infix_append_mid "API request failed with status " (Nat.repr resp.StatusCode)
      (": " ++ body)
    simpa [String.append_assoc] using h
  · refine ⟨("API request failed with status " ++ Nat.repr resp.StatusCode ++ ": ").data, [], ?_⟩
    simp [String.data_append]

/-- Claim C2 at work: status 500 with a body that is itself a well-formed success envelope. -/
theorem upstream_status_failure_witness :
    extractCodeFromImage (fun _ => "")
        (respond 500 "\x7b\"choices\":[\x7b\"message\":\x7b\"content\":\"\x7b\\\"language\\\":\\\"Go\\\",\\\"code\\\":\\\"x\\\",\\\"tag\\\":\\\"go\\\"\x7d\"\x7d\x7d]\x7d")
        [1, 2, 3]
      = .error "API request failed with status 500: \x7b\"choices\":[\x7b\"message\":\x7b\"content\":\"\x7b\\\"language\\\":\\\"Go\\\",\\\"code\\\":\\\"x\\\",\\\"tag\\\":\\\"go\\\"\x7d\"\x7d\x7d]\x7d" :=
  (upstream_status_failure (fun _ => "")
    (respond 500 "\x7b\"choices\":[\x7b\"message\":\x7b\"content\":\"\x7b\\\"language\\\":\\\"Go\\\",\\\"code\\\":\\\"x\\\",\\\"tag\\\":\\\"go\\\"\x7d\"\x7d\x7d]\x7d")
    [1, 2, 3] _ _ rfl rfl (by decide)).1

/-- Claim C3: when the upstream answers 200 and the decoded envelope carries an error
object with message `m`, `extractCodeFromImage` returns no result but the error
`API error: <m>`, whatever the choices list holds. In particular, for every
message an upstream answering with that error object gets the message back
verbatim, with an empty choices list and with a non-empty one. -/
theorem upstream_application_error :
    (∀ (getenv : String → String) (client : Client) (imageData : List Byte)
        (resp : HTTPResponse) (body : String) (apiResponse : OpenAIResponse) (e : APIError),
        client (extractCodeFromImage.req getenv imageData) = .ok resp →
        resp.Body = .ok body →
        resp.StatusCode = 200 →
        json.Unmarshal json.decodeOpenAIResponse body {} = (apiResponse, none) →
        apiResponse.Error = some e →
        extractCodeFromImage getenv client imageData = .error ("API error: " ++ e.Message))
    ∧ (∀ (getenv : String → String) (imageData : List Byte) (message : String),
        extractCodeFromImage getenv (respond 200 (errorEnvelope message)) imageData
          = .error ("API error: " ++ message)
        ∧ extractCodeFromImage getenv (respond 200 (errorEnvelopeWithChoice message)) imageData
          = .error ("API error: " ++ message)) :=
  ⟨fun getenv client imageData resp body apiResponse e hdo hbody hstatus hparse herr =>
      extract_of_error_object getenv client imageData resp body apiResponse e
        hdo hbody hstatus hparse herr,
   fun getenv imageData message =>
      ⟨extract_of_error_object getenv (respond 200 (errorEnvelope message)) imageData _ _ _
          { Message := message } rfl rfl rfl (unmarshal_errorEnvelope message) rfl,
       extract_of_error_object getenv (respond 200 (errorEnvelopeWithChoice message)) imageData
          _ _ _ { Message := message } rfl rfl rfl (unmarshal_errorEnvelopeWithChoice message)
          rfl⟩⟩

/-- Claim C3 at work: `quota exceeded` comes back verbatim, with an empty choices list
and with a non-empty one. -/
theorem upstream_application_error_witness :
    extractCodeFromImage (fun _ => "")
        (respond 200 "\x7b\"choices\":[],\"error\":\x7b\"message\":\"quota exceeded\"\x7d\x7d") []
      = .error "API error: quota exceeded"
    ∧ extractCodeFromImage (fun _ => "")
        (respond 200 "\x7b\"choices\":[\x7b\"message\":\x7b\"content\":\"hi\"\x7d\x7d],\"error\":\x7b\"message\":\"quota exceeded\"\x7d\x7d") []
      = .error "API error: quota exceeded" :=
  ⟨upstream_application_error.1 (fun _ => "")
      (respond 200 "\x7b\"choices\":[],\"error\":\x7b\"message\":\"quota exceeded\"\x7d\x7d") []
      _ _ { Choices := [], Error := some { Message := "quota exceeded" } }
      { Message := "quota exceeded" } rfl rfl rfl (by decide) rfl,
   upstream_application_error.1 (fun _ => "")
      (respond 200 "\x7b\"choices\":[\x7b\"message\":\x7b\"content\":\"hi\"\x7d\x7d],\"error\":\x7b\"message\":\"quota exceeded\"\x7d\x7d") []
      _ _ { Choices := [{ Message := { Content := "hi" } }], Error := some { Message := "quota exceeded" } }
      { Message := "quota exceeded" } rfl rfl rfl (by decide) rfl⟩

/-- Claim C4: `extractCodeFromImage` returns the error `no content in response` exactly
when the upstream answers 200 with an envelope that decodes, carries no error
object and has an empty choices list; no other failure returns this error. -/
theorem empty_response_failure (getenv : String → String) (client : Client)
    (imageData : List Byte) :
    extractCodeFromImage getenv client imageData = .error "no content in response" ↔
      ∃ resp body apiResponse,
        client (extractCodeFromImage.req getenv imageData) = .ok resp ∧
        resp.Body = .ok body ∧ resp.StatusCode = 200 ∧
        json.Unmarshal json.decodeOpenAIResponse body {} = (apiResponse, none) ∧
        apiResponse.Error = none ∧ apiResponse.Choices = [] := by
  constructor
  · intro h
    unfold extractCodeFromImage at h
    cases hdo : client (extractCodeFromImage.req getenv imageData) with
    | error err =>
      rw [hdo] at h
      exact absurd (Except.error.inj h) (append_ne_of_head _ _ _ (by decide) (by decide))
    | ok resp =>
      rw [hdo] at h
      cases hbody : resp.Body with
      | error err =>
        simp only [hbody] at h
        exact absurd (Except.error.inj h) (append_ne_of_head _ _ _ (by decide) (by decide))
      | ok body =>
        simp only [hbody] at h
        by_cases hs : resp.StatusCode = 200
        · simp only [hs, ne_eq, not_true_eq_false, ↓reduceIte] at h
          rcases hp : json.Unmarshal json.decodeOpenAIResponse body {} with ⟨apiResponse, perr⟩
          rw [hp] at h
          cases perr with
          | some err =>
            exact absurd (Except.error.inj h) (append_ne_of_head _ _ _ (by decide) (by decide))
          | none =>
            cases he : apiResponse.Error with
            | some e =>
              simp only [he] at h
              exact absurd (Except.error.inj h) (append_ne_of_head _ _ _ (by decide) (by decide))
            | none =>
              simp only [he] at h
              cases hc : apiResponse.Choices with
              | nil => exact ⟨resp, body, apiResponse, rfl, hbody, hs, hp, he, hc⟩
              | cons choice rest =>
                simp only [hc] at h
                rcases hq : json.Unmarshal json.decodeExtractedCode choice.Message.Content {}
                  with ⟨code, qerr⟩
                rw [hq] at h
                cases qerr with
                | some err =>
                  exact absurd (Except.error.inj h)
                    (append_ne_of_head _ _ _ (by decide) (by decide))
                | none => cases h
        · simp only [ne_eq, hs, not_false_eq_true, ↓reduceIte] at h
          have h1 := Except.error.inj h
          rw [String.append_assoc, String.append_assoc] at h1
          exact absurd h1 (append_ne_of_head _ _ _ (by decide) (by decide))
  · rintro ⟨resp, body, apiResponse, hdo, hbody, hs, hp, he, hc⟩
    unfold extractCodeFromImage
    simp only [hdo, hbody, hs, hp, he, hc]
    simp

/-- Claim C4 at work: status 200 with `choices: []`. -/
theorem empty_response_failure_witness :
    extractCodeFromImage (fun _ => "") (respond 200 "\x7b\"choices\":[]\x7d") [7]
      = .error "no content in response" :=
  (empty_response_failure (fun _ => "") (respond 200 "\x7b\"choices\":[]\x7d") [7]).mpr
    ⟨_, _, {}, rfl, rfl, rfl, by decide, rfl, rfl⟩

/-- Claim C5, as the code has it: when the content of the first choice is not valid JSON,
`extractCodeFromImage` fails with `error parsing structured response: `
followed by the syntax error of the decoder; the error carries nothing else.
In particular this is what an upstream gets that answers with such a content
in a well-formed envelope. -/
theorem malformed_content_rejected :
    (∀ (getenv : String → String) (client : Client) (imageData : List Byte)
        (resp : HTTPResponse) (body : String) (apiResponse : OpenAIResponse)
        (choice : Choice) (rest : List Choice) (e : List Char),
        client (extractCodeFromImage.req getenv imageData) = .ok resp →
        resp.Body = .ok body →
        resp.StatusCode = 200 →
        json.Unmarshal json.decodeOpenAIResponse body {} = (apiResponse, none) →
        apiResponse.Error = none →
        apiResponse.Choices = choice :: rest →
        json.checkValid choice.Message.Content.toList = .error e →
        extractCodeFromImage getenv client imageData
          = .error ("error parsing structured response: " ++ String.mk e))
    ∧ (∀ (getenv : String → String) (imageData : List Byte) (content : String) (e : List Char),
        json.checkValid content.toList = .error e →
        extractCodeFromImage getenv (respond 200 (envelope content)) imageData
          = .error ("error parsing structured response: " ++ String.mk e)) :=
  ⟨fun getenv client imageData resp body apiResponse choice rest e
      hdo hbody hstatus hparse hnoerr hchoice hcontent =>
      extract_of_syntax_error getenv client imageData resp body apiResponse choice rest e
        hdo hbody hstatus hparse hnoerr hchoice hcontent,
   fun getenv imageData content e hcontent =>
      extract_of_syntax_error getenv (respond 200 (envelope content)) imageData _ _ _
        { Message := { Content := content } } [] e rfl rfl rfl (unmarshal_envelope content)
        rfl rfl hcontent⟩

/-- Claim C5 at work: the content `not json`. -/
theorem malformed_content_rejected_witness :
    extractCodeFromImage (fun _ => "")
        (respond 200 "\x7b\"choices\":[\x7b\"message\":\x7b\"content\":\"not json\"\x7d\x7d]\x7d") []
      = .error "error parsing structured response: invalid character 'o' in literal null (expecting 'u')" :=
  malformed_content_rejected.1 (fun _ => "")
    (respond 200 "\x7b\"choices\":[\x7b\"message\":\x7b\"content\":\"not json\"\x7d\x7d]\x7d") []
    _ _ { Choices := [{ Message := { Content := "not json" } }] } _ []
    "invalid character 'o' in literal null (expecting 'u')".toList
    rfl rfl rfl (by decide) rfl rfl rfl

/-- Claim C5 as stated fails: no function recovers the raw content from the error.
The contents `not json` and `not jso` are both rejected, with the same error. -/
theorem raw_content_not_retrievable :
    ¬ ∃ retrieve : String → String, ∀ content : String,
        (∃ e, json.checkValid content.toList = .error e) →
        ∀ err, extractCodeFromImage (fun _ => "") (respond 200 (envelope content)) [] = .error err →
          retrieve err = content := by
  rintro ⟨retrieve, h⟩
  have h1 := h "not json" ⟨_, rfl⟩
    "error parsing structured response: invalid character 'o' in literal null (expecting 'u')"
    (by rfl)
  have h2 := h "not jso" ⟨_, rfl⟩
    "error parsing structured response: invalid character 'o' in literal null (expecting 'u')"
    (by rfl)
  rw [h1] at h2
  exact absurd h2 (by decide)

/-- Claim C6, as the code has it: with a JSON object as content, `extractCodeFromImage`
fails with a type error of the decoder when a member that selects one of the
fields `language`, `code`, `tag` has a value that is neither a string nor
`null`; otherwise it returns a result, in which a field that no member sets
to a string is the empty string. In particular this is what an upstream gets
that answers with such a content in a well-formed envelope. -/
theorem content_object_decoded :
    (∀ (getenv : String → String) (client : Client) (imageData : List Byte)
        (resp : HTTPResponse) (body : String) (apiResponse : OpenAIResponse)
        (choice : Choice) (rest : List Choice) (members : List (List Char × JSON)),
        client (extractCodeFromImage.req getenv imageData) = .ok resp →
        resp.Body = .ok body →
        resp.StatusCode = 200 →
        json.Unmarshal json.decodeOpenAIResponse body {} = (apiResponse, none) →
        apiResponse.Error = none →
        apiResponse.Choices = choice :: rest →
        json.checkValid choice.Message.Content.toList = .ok (.obj members) →
        ((∃ m ∈ members, storable m = false) →
          ∃ e : json.UnmarshalTypeError, extractCodeFromImage getenv client imageData
            = .error ("error parsing structured response: " ++ e.Error))
        ∧ ((∀ m ∈ members, storable m = true) →
          ∃ r : ExtractedCode, extractCodeFromImage getenv client imageData = .ok r
            ∧ ∀ f ∈ json.extractedCodeFields,
                lacksStringField members f = true → r.get f = ""))
    ∧ (∀ (getenv : String → String) (imageData : List Byte) (content : String)
        (members : List (List Char × JSON)),
        json.checkValid content.toList = .ok (.obj members) →
        ((∃ m ∈ members, storable m = false) →
          ∃ e : json.UnmarshalTypeError,
            extractCodeFromImage getenv (respond 200 (envelope content)) imageData
              = .error ("error parsing structured response: " ++ e.Error))
        ∧ ((∀ m ∈ members, storable m = true) →
          ∃ r : ExtractedCode,
            extractCodeFromImage getenv (respond 200 (envelope content)) imageData = .ok r
            ∧ ∀ f ∈ json.extractedCodeFields,
                lacksStringField members f = true → r.get f = "")) :=
  ⟨fun getenv client imageData resp body apiResponse choice rest members
      hdo hbody hstatus hparse hnoerr hchoice hcontent =>
      extract_of_content_object getenv client imageData resp body apiResponse choice rest
        members hdo hbody hstatus hparse hnoerr hchoice hcontent,
   fun getenv imageData content members hcontent =>
      extract_of_content_object getenv (respond 200 (envelope content)) imageData _ _ _
        { Message := { Content := content } } [] members rfl rfl rfl (unmarshal_envelope content)
        rfl rfl hcontent⟩

set_option maxRecDepth 100000 in
/-- Claim C6 at work: a number as `tag` is a type error; a missing `tag` and a `null`
`code` give empty strings. -/
theorem content_object_decoded_witness :
    (∃ e : json.UnmarshalTypeError, extractCodeFromImage (fun _ => "")
        (respond 200 "\x7b\"choices\":[\x7b\"message\":\x7b\"content\":\"\x7b\\\"language\\\":\\\"Go\\\",\\\"code\\\":\\\"x\\\",\\\"tag\\\":7\x7d\"\x7d\x7d]\x7d") []
      = .error ("error parsing structured response: " ++ e.Error))
    ∧ (∃ r : ExtractedCode, extractCodeFromImage (fun _ => "")
        (respond 200 "\x7b\"choices\":[\x7b\"message\":\x7b\"content\":\"\x7b\\\"language\\\":\\\"Go\\\",\\\"code\\\":null\x7d\"\x7d\x7d]\x7d") []
          = .ok r
        ∧ ∀ f ∈ json.extractedCodeFields,
            lacksStringField [("language".toList, .str "Go".toList), ("code".toList, .null)] f = true →
            r.get f = "") :=
  ⟨(content_object_decoded.1 (fun _ => "")
      (respond 200 "\x7b\"choices\":[\x7b\"message\":\x7b\"content\":\"\x7b\\\"language\\\":\\\"Go\\\",\\\"code\\\":\\\"x\\\",\\\"tag\\\":7\x7d\"\x7d\x7d]\x7d") []
      _ _ { Choices := [{ Message := { Content := "\x7b\"language\":\"Go\",\"code\":\"x\",\"tag\":7\x7d" } }] }
      _ []
      [("language".toList, .str "Go".toList), ("code".toList, .str "x".toList),
       ("tag".toList, .number "7".toList)]
      rfl rfl rfl (by decide) rfl rfl rfl).1
      ⟨("tag".toList, .number "7".toList),
       List.mem_cons_of_mem _ (List.mem_cons_of_mem _ (List.mem_cons_self _ _)), by decide⟩,
   (content_object_decoded.1 (fun _ => "")
      (respond 200 "\x7b\"choices\":[\x7b\"message\":\x7b\"content\":\"\x7b\\\"language\\\":\\\"Go\\\",\\\"code\\\":null\x7d\"\x7d\x7d]\x7d") []
      _ _ { Choices := [{ Message := { Content := "\x7b\"language\":\"Go\",\"code\":null\x7d" } }] }
      _ []
      [("language".toList, .str "Go".toList), ("code".toList, .null)]
      rfl rfl rfl (by decide) rfl rfl rfl).2 (by decide)⟩

set_option maxRecDepth 100000 in
/-- Claim C6 as stated fails: a content object without the field `tag` is not rejected;
the result comes back with an empty tag. So does the empty object. -/
theorem missing_field_not_rejected :
    extractCodeFromImage (fun _ => "")
        (respond 200 (envelope "\x7b\"language\":\"Go\",\"code\":\"x := 1\"\x7d")) []
      = .ok { Language := "Go", Code := "x := 1", Tag := "" }
    ∧ extractCodeFromImage (fun _ => "") (respond 200 (envelope "\x7b\x7d")) []
      = .ok { Language := "", Code := "", Tag := "" } :=
  ⟨by decide!, by decide!⟩

/-- Claim C7: for every image buffer the request has the model `gpt-4o-mini` and one
message of role `user` with two parts in this order: a `text` part holding the
instruction text followed by the languages catalog, the same for every
buffer, and an `image_url` part whose url is `data:image/jpeg;base64,`
followed by the base64 encoding of the buffer, which is the RFC 4648 encoding;
the JSON encoding of this request is the body handed to the upstream. -/
theorem request_shape (getenv : String → String) (imageData other : List Byte) :
    (extractCodeFromImage.request imageData).Model = "gpt-4o-mini"
    ∧ (extractCodeFromImage.request imageData).Messages =
        [{ Role := "user",
           Content := [
             { Type_ := "text", Text := instructionText ++ languages, ImageURL := none },
             { Type_ := "image_url", Text := "",
               ImageURL := some
                 { Url := "data:image/jpeg;base64," ++ String.mk (base64.rfc4648 imageData),
                   Base64 := "" } }] }]
    ∧ ((extractCodeFromImage.request imageData).Messages.map
          (fun m => (m.Content.head?).map Content.Text))
        = ((extractCodeFromImage.request other).Messages.map
          (fun m => (m.Content.head?).map Content.Text))
    ∧ (extractCodeFromImage.req getenv imageData).Body
        = json.MarshalRequest (extractCodeFromImage.request imageData) := by
  refine ⟨rfl, ?_, rfl, rfl⟩
  rw [← base64.encodeChars_eq_rfc4648]
  rfl

/-- Claim C8: every non-empty line of the languages catalog is the text
`Display Name - tag, alias, ...` of an entry with a non-empty display name and
a canonical tag, each tag a non-empty word; there is one canonical tag per
line and no two lines have the same canonical tag. -/
theorem catalog_entries_wellformed :
    (∀ l ∈ catalogLines, ∃ e : TagEntry,
        l = e.displayName ++ " - ".toList
              ++ List.intercalate ", ".toList (e.canonicalTag :: e.aliases)
        ∧ parseLine l = some e
        ∧ e.displayName ≠ [] ∧ isTag e.canonicalTag = true
        ∧ ∀ a ∈ e.aliases, isTag a = true)
    ∧ canonicalTags.length = catalogLines.length
    ∧ canonicalTags.Nodup := by
  have hall := List.all_eq_true.mp catalogLines_wellFormed
  have hsome : ∀ l ∈ catalogLines, ∃ e : TagEntry, parseLine l = some e ∧ e.render = l := by
    intro l hl
    have h := hall l hl
    unfold wellFormedLine at h
    split at h
    · rename_i e he
      exact ⟨e, he, of_decide_eq_true h⟩
    · cases h
  refine ⟨?_, ?_, ?_⟩
  · intro l hl
    obtain ⟨e, he, hr⟩ := hsome l hl
    exact ⟨e, hr.symm, he, parseLine_some l e he⟩
  · unfold canonicalTags
    apply length_filterMap_of_isSome
    intro l hl
    obtain ⟨e, he, _⟩ := hsome l hl
    simp [he]
  · exact List.Nodup.of_map wordCode (distinctFrom_spec _ _ canonicalTags_codes_distinct).1

/-- Claim C9: a request whose multipart parsing fails, or that has no file under the
form field `image`, gets status 400 with plain-text headers and a reason
line, and the extraction function is not called. -/
theorem bad_upload_rejected (extract : List Byte → Except String ExtractedCode)
    (r : http.Request)
    (h : (∃ err, r.ParseMultipartForm = .error err) ∨
         (∃ form, r.ParseMultipartForm = .ok form ∧ (form.File.lookup "image").getD [] = [])) :
    (postImageHandler extract {} r).w.status = some 400
    ∧ (postImageHandler extract {} r).w.sent.lookup "Content-Type"
        = some "text/plain; charset=utf-8"
    ∧ (∃ reason : String, (postImageHandler extract {} r).w.body = reason ++ "\n")
    ∧ (postImageHandler extract {} r).calls = [] := by
  rcases h with ⟨err, he⟩ | ⟨form, hf, hnone⟩
  · unfold postImageHandler
    rw [he]
    exact ⟨rfl, rfl, ⟨err, by simp [http.Error, http.ResponseWriter.Write,
      http.ResponseWriter.WriteHeader]⟩, rfl⟩
  · have hff : http.FormFile form "image" = .error .ErrMissingFile := by
      unfold http.FormFile
      cases hl : form.File.lookup "image" with
      | none => rfl
      | some fhs =>
        rw [hl] at hnone
        simp at hnone
        subst hnone
        rfl
    have hres : postImageHandler extract {} r
        = { w := http.Error {} "Request did not contain a file" http.StatusBadRequest,
            calls := [] } := by
      unfold postImageHandler
      rw [hf]
      simp only [hff]
    rw [hres]
    exact ⟨rfl, rfl, ⟨"Request did not contain a file", rfl⟩, rfl⟩

/-- Claim C9 at work: a body that is not multipart, and a form without the field `image`;
the extraction function passed in is the real one. -/
theorem bad_upload_rejected_witness :
    ((postImageHandler (extractCodeFromImage (fun _ => "") (respond 200 "\x7b\x7d")) {}
        { ParseMultipartForm := .error "request Content-Type isn't multipart/form-data" }).w.status
      = some 400)
    ∧ (postImageHandler (extractCodeFromImage (fun _ => "") (respond 200 "\x7b\x7d")) {}
        { ParseMultipartForm := .ok { File := [("file", [{ Open := .ok { data := [1] } }])] } }).calls
      = [] :=
  ⟨(bad_upload_rejected (extractCodeFromImage (fun _ => "") (respond 200 "\x7b\x7d"))
      { ParseMultipartForm := .error "request Content-Type isn't multipart/form-data" }
      (Or.inl ⟨_, rfl⟩)).1,
   (bad_upload_rejected (extractCodeFromImage (fun _ => "") (respond 200 "\x7b\x7d"))
      { ParseMultipartForm := .ok { File := [("file", [{ Open := .ok { data := [1] } }])] } }
      (Or.inr ⟨_, rfl, rfl⟩)).2.2.2⟩

/-- Claim C10 fails on the code: whenever the extraction function returns an error, the
handler writes the message with status 400 and then, having not returned,
also writes the JSON encoding of the nil result, `null`. -/
theorem failed_extraction_still_writes_json (err : String) (data : List Byte) :
    (postImageHandler (fun _ => .error err) {} (upload data)).w.status = some 400
    ∧ (postImageHandler (fun _ => .error err) {} (upload data)).w.body = err ++ "\n" ++ "null\n"
    ∧ (postImageHandler (extractCodeFromImage (fun _ => "") (respond 200 "\x7b\"choices\":[]\x7d"))
        {} (upload [1, 2, 3])).w.body = "no content in response\nnull\n" := by
  refine ⟨rfl, ?_, by decide⟩
  simp [postImageHandler, upload, http.FormFile, http.Error, http.ResponseWriter.Write,
    http.ResponseWriter.WriteHeader, json.EncodeExtractedCode, List.lookup]

end Codesnatcher
